import Mathlib

/-! # KAZE MEX wrapper (`mex/kaze.cpp`)

A shallow embedding of the MATLAB entry point `mexFunction` and of its helper
`parse_input_options`, followed by theorems about argument validation, option
parsing, image ingestion and result encoding.

Conventions of the embedding.

* Host arrays (`mxArray`) are records of what the host accessors return:
  class identifier, dimensions, the text `mxArrayToString` yields and the
  elements of the data buffer in storage (column-major) order.
* `double` and `float` values are rationals.  The narrowing to `float`, done by
  an assignment to a `float` field and by the conversion of the image, is a
  parameter `f32`; `float32` is the IEEE narrowing itself.
* `mexErrMsgIdAndTxt` does not return to its caller: it ends the call with the
  given error identifier.  The state reached at that point is kept in the
  result so that it can be inspected.
* The feature extractor (class `KAZE`) is a pair of functions supplied by the
  caller of the model.
-/

namespace Kaze

/-! ## Host arrays -/

/-- Class identifiers of host arrays (`mxClassID` of the host header `matrix.h`). -/
inductive MxClassID
  | mxUNKNOWN_CLASS
  | mxCELL_CLASS
  | mxSTRUCT_CLASS
  | mxLOGICAL_CLASS
  | mxCHAR_CLASS
  | mxVOID_CLASS
  | mxDOUBLE_CLASS
  | mxSINGLE_CLASS
  | mxINT8_CLASS
  | mxUINT8_CLASS
  | mxINT16_CLASS
  | mxUINT16_CLASS
  | mxINT32_CLASS
  | mxUINT32_CLASS
  | mxINT64_CLASS
  | mxUINT64_CLASS
  | mxFUNCTION_CLASS
  deriving DecidableEq, Repr

open MxClassID

/-- A host array as seen through the accessors the wrapper uses. -/
structure MxArray where
  /-- Class of the array (`mxGetClassID`). -/
  classID : MxClassID
  /-- Number of rows (`mxGetM`). -/
  M : Nat
  /-- Number of columns (`mxGetN`). -/
  N : Nat
  /-- Text produced by `mxArrayToString`. -/
  text : String
  /-- Elements of the data buffer (`mxGetPr`), in column-major storage order. -/
  data : List ℚ
  deriving DecidableEq

/-- Host predicate `mxIsUint8`. -/
def mxIsUint8 (a : MxArray) : Bool := a.classID = mxUINT8_CLASS

/-- Host predicate `mxIsChar`. -/
def mxIsChar (a : MxArray) : Bool := a.classID = mxCHAR_CLASS

/-- Host predicate `mxIsNumeric`: true for the integer and floating classes. -/
def mxIsNumeric (a : MxArray) : Bool :=
  match a.classID with
  | mxDOUBLE_CLASS | mxSINGLE_CLASS
  | mxINT8_CLASS | mxUINT8_CLASS | mxINT16_CLASS | mxUINT16_CLASS
  | mxINT32_CLASS | mxUINT32_CLASS | mxINT64_CLASS | mxUINT64_CLASS => true
  | _ => false

/-- Host accessor `mxArrayToString`. -/
def mxArrayToString (a : MxArray) : String := a.text

/-- Host accessor `mxGetScalar`: the first element of the array as a double. -/
def mxGetScalar (a : MxArray) : ℚ := a.data.headD 0

/-- Host accessor `mxGetM`. -/
def mxGetM (a : MxArray) : Nat := a.M

/-- Host accessor `mxGetN`. -/
def mxGetN (a : MxArray) : Nat := a.N

/-- Host accessor `mxGetPr`: the data buffer. -/
def mxGetPr (a : MxArray) : List ℚ := a.data

/-- Host constructor `mxCreateNumericMatrix(m, n, classid, mxREAL)`: an
`m`-by-`n` array of the given class whose elements are all zero. -/
def mxCreateNumericMatrix (m n : Nat) (classid : MxClassID) : MxArray :=
  { classID := classid, M := m, N := n, text := "", data := List.replicate (m * n) 0 }

/-- Host constructor `mxCreateDoubleMatrix(m, n, mxREAL)`. -/
def mxCreateDoubleMatrix (m n : Nat) : MxArray :=
  mxCreateNumericMatrix m n mxDOUBLE_CLASS

/-- Element `(r, c)` of a host array, read in column-major order. -/
def MxArray.elem (a : MxArray) (r c : Nat) : Option ℚ :=
  if r < a.M ∧ c < a.N then a.data[r + c * a.M]? else none

/-! ## Scalar conversions of C++ -/

/-- Smallest value of a 32-bit C++ `int`. -/
def INT_MIN : Int := -2 ^ 31

/-- Largest value of a 32-bit C++ `int`. -/
def INT_MAX : Int := 2 ^ 31 - 1

/-- Conversion `double -> int` (also used for the casts to the two enumeration
types): truncation toward zero when the truncated value fits a 32-bit `int`.
Outside that range C++ leaves the result undefined; the model takes what the
x86 conversion instruction (`cvttsd2si`) yields there, `INT_MIN`. -/
def doubleToInt (v : ℚ) : Int :=
  if INT_MIN ≤ Int.tdiv v.num v.den ∧ Int.tdiv v.num v.den ≤ INT_MAX then
    Int.tdiv v.num v.den
  else INT_MIN

/-- Nearest integer to `q`, a tie going to the even neighbour. -/
def roundHalfEven (q : ℚ) : Int :=
  if q - ⌊q⌋ < 1 / 2 then ⌊q⌋
  else if 1 / 2 < q - ⌊q⌋ then ⌊q⌋ + 1
  else if ⌊q⌋ % 2 = 0 then ⌊q⌋ else ⌊q⌋ + 1

/-- Conversion to `float` (IEEE binary32, round to nearest, ties to even): the
value is rounded to 24 significant bits, with the exponent of the unit in the
last place not below that of the subnormal numbers.  Magnitudes above the
largest `float` (which C++ turns into infinity) are not modelled. -/
def float32 (q : ℚ) : ℚ :=
  if q = 0 then 0
  else
    (roundHalfEven (q / 2 ^ (max (Int.log 2 |q|) (-126) - 23)) : ℚ)
      * 2 ^ (max (Int.log 2 |q|) (-126) - 23)

/-- The `double` constant `1.0/255.0` of line 191: the binary64 number nearest
to `1/255`, which is `282578800148737 / 2^56`. -/
def scale255 : ℚ := 282578800148737 / 72057594037927936

/-- Conversion `double -> bool`: true exactly for non-zero values. -/
def doubleToBool (v : ℚ) : Bool := decide (v ≠ 0)

/-- Conversion `size_t -> int` on a 32-bit `int`: reduction modulo `2^32` into
the signed range. -/
def sizeToInt (n : Nat) : Int :=
  if n % 2 ^ 32 < 2 ^ 31 then ((n % 2 ^ 32 : Nat) : Int) else ((n % 2 ^ 32 : Nat) : Int) - 2 ^ 32

/-! ## Options record -/

/-- Modelled from the spec: the record `KAZEOptions` is declared in
`KAZEConfig.h`, which is not among the sources.  Its fields are the ones
`kaze.cpp` assigns, typed as the spec's data model types them (floats,
integers, enumerations kept as their integer value, booleans). -/
structure KAZEOptions where
  soffset : ℚ
  omax : Int
  nsublevels : Int
  img_width : Int
  img_height : Int
  diffusivity : Int
  sderivatives : ℚ
  dthreshold : ℚ
  descriptor : Int
  save_scale_space : Bool
  verbosity : Bool
  deriving DecidableEq

/-- Enumeration value `MSURF` of `DESCRIPTOR_TYPE` (help text: `5 -> MSURF`). -/
def MSURF : Int := 5

/-- Enumeration value `GSURF_EXTENDED` of `DESCRIPTOR_TYPE`
(help text: `11 -> GSURF_EXTENDED`). -/
def GSURF_EXTENDED : Int := 11

/-- Modelled from the spec: the defaults set by the constructor of
`KAZEOptions` (in `KAZEConfig.h`, not among the sources).  The two defaults the
spec leaves to the implementation, and the image size before ingestion, are
arguments. -/
def KAZEOptions.defaults (dthreshold sderivatives : ℚ) (w h : Int) : KAZEOptions :=
  { soffset := 8 / 5, omax := 4, nsublevels := 4, img_width := w, img_height := h,
    diffusivity := 1, sderivatives := sderivatives, dthreshold := dthreshold,
    descriptor := MSURF, save_scale_space := false, verbosity := false }

/-! ## Errors, output text and results -/

/-- Error identifiers raised through `mexErrMsgIdAndTxt`. -/
inductive MexError
  /-- Identifier `kaze:notUint8`. -/
  | notUint8
  /-- Identifier `kaze:badArgNum`. -/
  | badArgNum
  /-- Identifier `kaze:badParamTypes`. -/
  | badParamTypes
  /-- Identifier `kaze:badParamName`. -/
  | badParamName
  /-- Identifier `kaze:unknownDescType`. -/
  | unknownDescType
  deriving DecidableEq, Repr

/-- How a function of the wrapper ends. -/
inductive Status
  /-- Normal return, with the returned value (0 for a `void` function). -/
  | returned (value : Int)
  /-- Ended by `mexErrMsgIdAndTxt`. -/
  | error (e : MexError)
  /-- An argument index outside `prhs` was read. -/
  | outOfBounds
  /-- The loop budget of the model ran out. -/
  | outOfFuel
  deriving DecidableEq, Repr

/-- State of `parse_input_options`: the options record being written, the text
printed through `mexPrintf` and the indices of `prhs` read so far. -/
structure ParseState where
  options : KAZEOptions
  printed : List String
  reads : List Nat
  deriving DecidableEq

/-- Result of `parse_input_options`. -/
structure ParseResult where
  state : ParseState
  status : Status
  deriving DecidableEq

/-! ## `parse_input_options` -/

/-- The chain of `strcmp` tests of one loop iteration, lines 95-146: the
options after the assignment selected by `param_name`, or `none` when no test
matches and control reaches the `kaze:badParamName` error.  The bounds check
on `descriptor` (lines 128-130) follows the `continue` of line 127 and is never
executed, so it has no counterpart here. -/
def assignParam (f32 : ℚ → ℚ) (param_name : String) (v : ℚ) (options : KAZEOptions) :
    Option KAZEOptions :=
  if param_name = "soffset" then some { options with soffset := f32 v }
  else if param_name = "omax" then some { options with omax := doubleToInt v }
  else if param_name = "dthreshold" then some { options with dthreshold := f32 v }
  else if param_name = "sderivatives" then some { options with sderivatives := f32 v }
  else if param_name = "nsublevels" then some { options with nsublevels := doubleToInt v }
  else if param_name = "diffusivity" then some { options with diffusivity := doubleToInt v }
  else if param_name = "descriptor" then some { options with descriptor := doubleToInt v }
  else if param_name = "verbose" then some { options with verbosity := doubleToBool v }
  else if param_name = "save_scale_space" then
    some { options with save_scale_space := doubleToBool v }
  else none

/-- The `for` loop of `parse_input_options` (lines 86-148), started at index
`i` with the given loop budget. -/
def parseLoop (f32 : ℚ → ℚ) (nrhs : Nat) (prhs : List MxArray) :
    Nat → Nat → ParseState → ParseResult
  | 0, _, st => { state := st, status := Status.outOfFuel }
  | fuel + 1, i, st =>
    if i < nrhs then
      match prhs[i]? with
      | none => { state := { st with reads := st.reads ++ [i] }, status := Status.outOfBounds }
      | some name =>
        if !mxIsChar name then
          { state := { st with reads := st.reads ++ [i] },
            status := Status.error MexError.badParamTypes }
        else
          match prhs[i + 1]? with
          | none =>
            { state := { st with reads := st.reads ++ [i, i + 1] },
              status := Status.outOfBounds }
          | some value =>
            if !mxIsNumeric value then
              { state := { st with reads := st.reads ++ [i, i + 1] },
                status := Status.error MexError.badParamTypes }
            else
              let param_name := mxArrayToString name
              match assignParam f32 param_name (mxGetScalar value) st.options with
              | some options =>
                parseLoop f32 nrhs prhs fuel (i + 2)
                  { st with options := options, reads := st.reads ++ [i, i + 1] }
              | none =>
                { state :=
                    { st with
                      printed := st.printed ++ ["Bad Param name: " ++ param_name ++ "\n"],
                      reads := st.reads ++ [i, i + 1] },
                  status := Status.error MexError.badParamName }
    else { state := st, status := Status.returned 0 }

/-- Function `parse_input_options(options, nrhs, prhs)`, lines 82-151.  The loop
index grows by 2 from 1, so `nrhs` iterations are more than the loop can make. -/
def parse_input_options (f32 : ℚ → ℚ) (options : KAZEOptions) (nrhs : Nat)
    (prhs : List MxArray) : ParseResult :=
  if nrhs ≥ 3 then
    parseLoop f32 nrhs prhs nrhs 1 { options := options, printed := [], reads := [] }
  else
    { state := { options := options, printed := [], reads := [] },
      status := Status.returned 0 }

/-! ## Pipeline data (OpenCV) and the feature extractor -/

/-- OpenCV type code `CV_8U` (equal to `CV_8UC1`). -/
def CV_8U : Int := 0

/-- OpenCV type code `CV_8UC1`. -/
def CV_8UC1 : Int := 0

/-- OpenCV type code `CV_32F` (equal to `CV_32FC1`). -/
def CV_32F : Int := 5

/-- OpenCV type code `CV_32FC1`. -/
def CV_32FC1 : Int := 5

/-- A dense single-channel `cv::Mat`: element type code, dimensions and the
elements in continuous row-major storage order. -/
structure Mat where
  type : Int
  rows : Int
  cols : Int
  data : List ℚ
  deriving DecidableEq

/-- Constructor `cv::Mat(rows, cols, type, data)`: a matrix header over an
existing buffer, read row by row. -/
def Mat.ofBuffer (rows cols : Int) (type : Int) (data : List ℚ) : Mat :=
  { type := type, rows := rows, cols := cols, data := data }

/-- Element `(r, c)` of a matrix, read in row-major order. -/
def Mat.elem (m : Mat) (r c : Nat) : Option ℚ :=
  if (r : Int) < m.rows ∧ (c : Int) < m.cols then m.data[r * m.cols.toNat + c]? else none

/-- Element conversion of OpenCV from an 8-bit to a `float` matrix with scale
`alpha` and offset `beta` (given as doubles): the library works in `float`, so
both are narrowed to `float` and the element becomes the `float` product
`x * alpha` plus `beta`, each operation rounding to `float`. -/
def cvtScale (f32 : ℚ → ℚ) (alpha beta x : ℚ) : ℚ :=
  f32 (f32 (x * f32 alpha) + f32 beta)

/-- Method `src.convertTo(dst, rtype, alpha, beta)` from an 8-bit matrix to a
`float` destination type: every element is converted by `cvtScale`, the shape
is kept. -/
def Mat.convertTo (f32 : ℚ → ℚ) (m : Mat) (rtype : Int) (alpha beta : ℚ) : Mat :=
  { m with type := rtype, data := m.data.map (cvtScale f32 alpha beta) }

/-- The position `pt` of a `cv::KeyPoint`. -/
structure KeyPoint where
  x : ℚ
  y : ℚ
  deriving DecidableEq

/-- Modelled from the spec: the class `KAZE` (`KAZE.h`) is not among the
sources; the spec treats it as an opaque feature extractor with a detection
operation (float image and options to keypoints) and a description operation
(keypoints to descriptor matrix). -/
structure KAZE where
  /-- Keypoints found by `Create_Nonlinear_Scale_Space(img_32)` followed by
  `Feature_Detection(kpts)` on an extractor constructed from `options`. -/
  Feature_Detection : KAZEOptions → Mat → List KeyPoint
  /-- Descriptor matrix filled by `Compute_Descriptors(kpts, desc)`. -/
  Compute_Descriptors : KAZEOptions → Mat → List KeyPoint → Mat

/-- Observable steps of a call, in the order they happen. -/
inductive Event
  /-- Text written by `mexPrintf`. -/
  | print (s : String)
  /-- Line `Number of points: %d` of the summary. -/
  | printNumPoints (n : Nat)
  /-- A timing line of the summary (the value is wall-clock time). -/
  | printTime (label : String)
  /-- Call of `Create_Nonlinear_Scale_Space` and `Feature_Detection`. -/
  | detect (options : KAZEOptions) (img_32 : Mat)
  /-- Call of `Compute_Descriptors` with the given keypoints. -/
  | describe (kpts : List KeyPoint)
  deriving DecidableEq

/-- State of `mexFunction`: the options record, the two output slots `plhs[0]`
and `plhs[1]` (`none` while unset) and the steps taken so far. -/
structure MexState where
  options : KAZEOptions
  plhs0 : Option MxArray
  plhs1 : Option MxArray
  log : List Event
  deriving DecidableEq

/-- Result of `mexFunction`. -/
structure MexResult where
  state : MexState
  status : Status
  deriving DecidableEq

/-! ## `show_input_options_help` -/

/-- Function `show_input_options_help`, lines 38-75: the lines it prints. -/
def show_input_options_help : List String :=
  [ "KAZE Features\n",
    "Usage:\n",
    "[kps,desc] = kaze(gray_img, param1, value1, ...)\n\n",
    "Options below are not mandatory. Unless specified, default arguments are used.\n",
    "Scale-space parameters:\n",
    "soffset - Base scale offset [sigma units] (default=1.6)\n",
    "omax - Maximum octave of image evolution (default=4)\n",
    "nsublevels - Number of sublevels per octave (default=4)\n",
    "diffusivity - Diffusivity function. Possible values:\n",
    " 0 -> Perona-Malik, g1 = exp(-|dL|^2/k^2)\n",
    " 1 -> Perona-Malik, g2 = 1 / (1 + dL^2 / k^2) (default)\n",
    " 2 -> Weickert diffusivity\n",
    " 3 -> Charbonnier diffusivity\n",
    "\nFeature detection parameters:\n",
    "dthreshold - Feature detector threshold response for keypoints (0.001 can be a good value)\n",
    "\nDescriptor parameters:\n",
    "descriptor - Descriptor Type. Possible values:\n",
    " 0 -> SURF_UPRIGHT\n",
    " 1 -> SURF\n",
    " 2 -> SURF_EXTENDED_UPRIGHT,\n",
    " 3 -> SURF_EXTENDED\n",
    " 4 -> MSURF_UPRIGHT\n",
    " 5 -> MSURF (default)\n",
    " 6 -> MSURF_EXTENDED_UPRIGHT\n",
    " 7 -> MSURF_EXTENDED\n",
    " 8 -> GSURF_UPRIGHT,\n",
    " 9 -> GSURF\n",
    " 10 -> GSURF_EXTENDED_UPRIGHT\n",
    " 11 -> GSURF_EXTENDED\n",
    "\nMisc:\n",
    "verbose - Verbose mode. Prints calculation times and stores scale space images in ..\\output\\ folder (if exists)\n\n" ]

/-! ## `mexFunction` -/

/-- Lines 183-191 of `mexFunction`: the image size is written to the options,
a `CV_8U` matrix header is put over the host buffer with `img_height` rows and
`img_width` columns, and the matrix is converted to `CV_32F` with scale
`1.0/255.0` and offset 0.  Returns the options, `img` and `img_32`. -/
def ingest (f32 : ℚ → ℚ) (options : KAZEOptions) (image : MxArray) :
    KAZEOptions × Mat × Mat :=
  let options := { options with img_width := sizeToInt (mxGetM image) }
  let options := { options with img_height := sizeToInt (mxGetN image) }
  let img := Mat.ofBuffer options.img_height options.img_width CV_8U (mxGetPr image)
  let img_32 := img.convertTo f32 CV_32F scale255 0
  (options, img, img_32)

/-- Body of the loop of lines 208-212 for index `i`: `pts_ptr[i] = kpts[i].pt.y`
and `pts_ptr[kpts.size()+i] = kpts[i].pt.x`. -/
def writeKeypoint (kpts : List KeyPoint) (pts_ptr : List ℚ) (i : Nat) : List ℚ :=
  match kpts[i]? with
  | some k => (pts_ptr.set i k.y).set (kpts.length + i) k.x
  | none => pts_ptr

/-- Lines 206-212 of `mexFunction`: a `kpts.size()`-by-2 double matrix is
created and the loop over `i` from 0 below `kpts.size()` fills its buffer. -/
def encodeKeypoints (kpts : List KeyPoint) : MxArray :=
  let out := mxCreateDoubleMatrix kpts.length 2
  { out with data := (List.range kpts.length).foldl (writeKeypoint kpts) out.data }

/-- The copy loop of lines 229-230 and 237-238: for every `i` below `count`,
`desc_ptr[i] = mat_ptr[i]`. -/
def copyElements (count : Nat) (mat_ptr desc_ptr : List ℚ) : List ℚ :=
  (List.range count).foldl
    (fun buf i =>
      match mat_ptr[i]? with
      | some v => buf.set i v
      | none => buf)
    desc_ptr

/-- Lines 224-244 of `mexFunction`: the second output for the descriptor matrix
`desc`, or `none` when its type is neither `CV_8UC1` nor `CV_32FC1` and
control reaches the `kaze:unknownDescType` error. -/
def encodeDescriptors (desc : Mat) : Option MxArray :=
  if desc.type = CV_8UC1 then
    let out := mxCreateNumericMatrix desc.cols.toNat desc.rows.toNat mxUINT8_CLASS
    some { out with data := copyElements (desc.rows * desc.cols).toNat desc.data out.data }
  else if desc.type = CV_32FC1 then
    let out := mxCreateNumericMatrix desc.cols.toNat desc.rows.toNat mxSINGLE_CLASS
    some { out with data := copyElements (desc.rows * desc.cols).toNat desc.data out.data }
  else none

/-- Lines 248-255 of `mexFunction`: the summary printed in verbose mode. -/
def summary (options : KAZEOptions) (nlhs : Nat) (kpts : List KeyPoint) : List Event :=
  if options.verbosity then
    [Event.printNumPoints kpts.length, Event.printTime "Conversion uint8->float",
      Event.printTime "Detector"]
      ++ (if nlhs = 2 then [Event.printTime "Descriptor"] else [])
  else []

/-- Lines 182-255 of `mexFunction`: ingestion, detection, encoding of the
outputs and the summary, from the state reached after option parsing. -/
def extract (f32 : ℚ → ℚ) (kaze : KAZE) (st : MexState) (nlhs : Nat) (image : MxArray) :
    MexResult :=
  let options := (ingest f32 st.options image).1
  let img_32 := (ingest f32 st.options image).2.2
  let kpts := kaze.Feature_Detection options img_32
  let log := st.log ++ [Event.detect options img_32]
  let plhs0 := if nlhs > 0 then some (encodeKeypoints kpts) else st.plhs0
  if nlhs = 2 then
    let desc := kaze.Compute_Descriptors options img_32 kpts
    match encodeDescriptors desc with
    | some out =>
      { state :=
          { options := options, plhs0 := plhs0, plhs1 := some out,
            log := log ++ [Event.describe kpts] ++ summary options nlhs kpts },
        status := Status.returned 0 }
    | none =>
      { state :=
          { options := options, plhs0 := plhs0, plhs1 := st.plhs1,
            log := log ++ [Event.describe kpts] },
        status := Status.error MexError.unknownDescType }
  else
    { state :=
        { options := options, plhs0 := plhs0, plhs1 := st.plhs1,
          log := log ++ summary options nlhs kpts },
      status := Status.returned 0 }

/-- Function `mexFunction(nlhs, plhs, nrhs, prhs)`, lines 154-256.  The argument
`options` is the default-constructed record of line 157. -/
def mexFunction (f32 : ℚ → ℚ) (kaze : KAZE) (options : KAZEOptions) (nlhs nrhs : Nat)
    (prhs : List MxArray) : MexResult :=
  let st : MexState := { options := options, plhs0 := none, plhs1 := none, log := [] }
  if nrhs = 0 then
    { state := { st with log := show_input_options_help.map Event.print },
      status := Status.returned 0 }
  else
    match prhs[0]? with
    | none => { state := st, status := Status.outOfBounds }
    | some image =>
      if !mxIsUint8 image then { state := st, status := Status.error MexError.notUint8 }
      else if nrhs % 2 = 0 then { state := st, status := Status.error MexError.badArgNum }
      else if nrhs > 1 then
        let p := parse_input_options f32 options nrhs prhs
        let st := { st with options := p.state.options, log := p.state.printed.map Event.print }
        match p.status with
        | Status.returned 0 => extract f32 kaze st nlhs image
        | Status.returned _ => { state := st, status := Status.returned 0 }
        | s => { state := st, status := s }
      else extract f32 kaze st nlhs image

/-! ## Specification-side definitions -/

/-- The recognised configuration names, as the spec lists them. -/
def recognizedNames : List String :=
  ["soffset", "omax", "nsublevels", "diffusivity", "dthreshold", "sderivatives",
    "descriptor", "verbose", "save_scale_space"]

/-- The trailing arguments made of a sequence of (name, value) pairs. -/
def flattenPairs (pairs : List (MxArray × MxArray)) : List MxArray :=
  pairs.flatMap (fun p => [p.1, p.2])

/-- A pair is well typed when its name is a char array and its value is numeric. -/
def wellTyped (p : MxArray × MxArray) : Bool := mxIsChar p.1 && mxIsNumeric p.2

/-- A pair has a recognised name. -/
def hasRecognizedName (p : MxArray × MxArray) : Bool :=
  decide (mxArrayToString p.1 ∈ recognizedNames)

/-- The spec's reading of one recognised pair: the scalar, converted to the type
of the field, is written to the field the name designates and every other
field is left as it is. -/
def writeField (f32 : ℚ → ℚ) (name : String) (v : ℚ) (o : KAZEOptions) : KAZEOptions :=
  if name = "soffset" then { o with soffset := f32 v }
  else if name = "omax" then { o with omax := doubleToInt v }
  else if name = "nsublevels" then { o with nsublevels := doubleToInt v }
  else if name = "diffusivity" then { o with diffusivity := doubleToInt v }
  else if name = "dthreshold" then { o with dthreshold := f32 v }
  else if name = "sderivatives" then { o with sderivatives := f32 v }
  else if name = "descriptor" then { o with descriptor := doubleToInt v }
  else if name = "verbose" then { o with verbosity := doubleToBool v }
  else if name = "save_scale_space" then { o with save_scale_space := doubleToBool v }
  else o

/-- The spec's reading of a sequence of recognised pairs: the initial record
updated pair by pair in argument order. -/
def writeFields (f32 : ℚ → ℚ) (pairs : List (MxArray × MxArray)) (o : KAZEOptions) :
    KAZEOptions :=
  pairs.foldl (fun o p => writeField f32 (mxArrayToString p.1) (mxGetScalar p.2) o) o

/-- The scalar of the last pair named `key`, if any pair has that name. -/
def lastValue (key : String) (pairs : List (MxArray × MxArray)) : Option ℚ :=
  (pairs.reverse.find? (fun p => decide (mxArrayToString p.1 = key))).map
    (fun p => mxGetScalar p.2)

/-- The loop of `parse_input_options` read over the list of pairs that remain
from index `i` on. -/
def parsePairs (f32 : ℚ → ℚ) : List (MxArray × MxArray) → Nat → ParseState → ParseResult
  | [], _, st => { state := st, status := Status.returned 0 }
  | p :: rest, i, st =>
    if !mxIsChar p.1 then
      { state := { st with reads := st.reads ++ [i] },
        status := Status.error MexError.badParamTypes }
    else if !mxIsNumeric p.2 then
      { state := { st with reads := st.reads ++ [i, i + 1] },
        status := Status.error MexError.badParamTypes }
    else
      match assignParam f32 (mxArrayToString p.1) (mxGetScalar p.2) st.options with
      | some options =>
        parsePairs f32 rest (i + 2)
          { st with options := options, reads := st.reads ++ [i, i + 1] }
      | none =>
        { state :=
            { st with
              printed := st.printed ++ ["Bad Param name: " ++ mxArrayToString p.1 ++ "\n"],
              reads := st.reads ++ [i, i + 1] },
          status := Status.error MexError.badParamName }

/-- A valid uint8 host image: class uint8, dimensions that fit a C++ `int`,
a buffer of `M * N` elements, each an integer from 0 to 255. -/
def validImage (a : MxArray) : Bool :=
  mxIsUint8 a && decide (a.M < 2 ^ 31) && decide (a.N < 2 ^ 31)
    && decide (a.data.length = a.M * a.N)
    && a.data.all (fun x => decide (x.den = 1) && decide (0 ≤ x.num) && decide (x.num < 256))

/-- The keypoints detection returns in a call that reaches it with the parsed
options `options` (lines 196-200). -/
def detectedKeypoints (f32 : ℚ → ℚ) (kaze : KAZE) (options : KAZEOptions)
    (image : MxArray) : List KeyPoint :=
  kaze.Feature_Detection (ingest f32 options image).1 (ingest f32 options image).2.2

/-- The descriptor matrix description returns in a call that reaches it with
the parsed options `options` (lines 218-220). -/
def computedDescriptors (f32 : ℚ → ℚ) (kaze : KAZE) (options : KAZEOptions)
    (image : MxArray) : Mat :=
  kaze.Compute_Descriptors (ingest f32 options image).1 (ingest f32 options image).2.2
    (detectedKeypoints f32 kaze options image)

/-- An event is a call of detection. -/
def Event.isDetect : Event → Bool
  | Event.detect _ _ => true
  | _ => false

/-- An event is a call of description. -/
def Event.isDescribe : Event → Bool
  | Event.describe _ => true
  | _ => false

/-- The argument indices read by `k` complete loop iterations starting at
index `i`: `i, i + 1, i + 2, ...`, two per iteration. -/
def pairIndices : Nat → Nat → List Nat
  | _, 0 => []
  | i, k + 1 => i :: (i + 1) :: pairIndices (i + 2) k

/-! ## Sample inputs -/

/-- Host constructor `mxCreateString`: a 1-by-n char array holding `s`. -/
def mxCreateString (s : String) : MxArray :=
  { classID := mxCHAR_CLASS, M := 1, N := s.length, text := s,
    data := s.toList.map (fun c => (c.toNat : ℚ)) }

/-- Host constructor `mxCreateDoubleScalar`: a 1-by-1 double array holding `v`. -/
def mxCreateDoubleScalar (v : ℚ) : MxArray :=
  { classID := mxDOUBLE_CLASS, M := 1, N := 1, text := "", data := [v] }

/-- A 2-by-3 uint8 image; in column-major order its columns are
`(10, 20)`, `(32, 40)` and `(64, 255)`. -/
def sampleImage : MxArray :=
  { classID := mxUINT8_CLASS, M := 2, N := 3, text := "", data := [10, 20, 32, 40, 64, 255] }

/-- A 2-by-3 array of doubles: not a uint8 image. -/
def sampleDoubleImage : MxArray :=
  { classID := mxDOUBLE_CLASS, M := 2, N := 3, text := "", data := [10, 20, 30, 40, 50, 255] }

/-- An extractor that reports a single keypoint, at the last pixel of the
float image (`x` = last column, `y` = last row), and describes every keypoint
by the two floats `(x, y)`. -/
def sampleKAZE : KAZE :=
  { Feature_Detection := fun _ img =>
      [{ x := ((img.cols - 1 : Int) : ℚ), y := ((img.rows - 1 : Int) : ℚ) }],
    Compute_Descriptors := fun _ _ kpts =>
      { type := CV_32FC1, rows := kpts.length, cols := 2,
        data := kpts.flatMap (fun k => [k.x, k.y]) } }

/-- The default options of the spec with threshold `1/1000`, derivative scale
1 and a zero image size. -/
def sampleOptions : KAZEOptions := KAZEOptions.defaults (1 / 1000) 1 0 0

/-- The pairs `("omax", 4), ("bogus", 1)` of the spec's scenario. -/
def bogusPairs : List (MxArray × MxArray) :=
  [(mxCreateString "omax", mxCreateDoubleScalar 4),
    (mxCreateString "bogus", mxCreateDoubleScalar 1)]

/-- The pairs `("bogus", 1), ("omax", "x")`: an unrecognised name first, then a
value that is text. -/
def bogusThenTextPairs : List (MxArray × MxArray) :=
  [(mxCreateString "bogus", mxCreateDoubleScalar 1),
    (mxCreateString "omax", mxCreateString "x")]

/-- The pairs `("omax", 4), ("soffset", 2), ("omax", 7), ("nsublevels", 3e9),
("dthreshold", 5)`: `omax` is named twice and the value given for the integer
field `nsublevels` is beyond the range of `int`. -/
def repeatedPairs : List (MxArray × MxArray) :=
  [(mxCreateString "omax", mxCreateDoubleScalar 4),
    (mxCreateString "soffset", mxCreateDoubleScalar 2),
    (mxCreateString "omax", mxCreateDoubleScalar 7),
    (mxCreateString "nsublevels", mxCreateDoubleScalar 3000000000),
    (mxCreateString "dthreshold", mxCreateDoubleScalar 5)]

/-- OpenCV type code `CV_64FC1`, a type the wrapper does not encode. -/
def CV_64FC1 : Int := 6

/-- An extractor that finds no keypoint and returns an empty descriptor matrix
of 64-bit floats. -/
def emptyKAZE64 : KAZE :=
  { Feature_Detection := fun _ _ => [],
    Compute_Descriptors := fun _ _ _ => { type := CV_64FC1, rows := 0, cols := 0, data := [] } }

/-- An extractor like `sampleKAZE` whose descriptors are 64-bit floats. -/
def sampleKAZE64 : KAZE :=
  { Feature_Detection := sampleKAZE.Feature_Detection,
    Compute_Descriptors := fun _ _ kpts =>
      { type := CV_64FC1, rows := kpts.length, cols := 2,
        data := kpts.flatMap (fun k => [k.x, k.y]) } }

/-! ## The parsing loop over a list of pairs -/

theorem getElem?_prefix_cons (pre : List MxArray) (a : MxArray) (rest : List MxArray) :
    (pre ++ a :: rest)[pre.length]? = some a := by
  rw [List.getElem?_append_right (Nat.le_refl _)]
  simp

theorem getElem?_prefix_cons_succ (pre : List MxArray) (a b : MxArray) (rest : List MxArray) :
    (pre ++ a :: b :: rest)[pre.length + 1]? = some b := by
  have h : pre ++ a :: b :: rest = (pre ++ [a]) ++ b :: rest := by simp
  have hl : pre.length + 1 = (pre ++ [a]).length := by simp
  rw [h, hl]
  exact getElem?_prefix_cons (pre ++ [a]) b rest

/-- On arguments made of a prefix followed by pairs, the loop started right
after the prefix with enough budget is `parsePairs`. -/
theorem parseLoop_eq_parsePairs (f32 : ℚ → ℚ) (pairs : List (MxArray × MxArray)) :
    ∀ (pre : List MxArray) (fuel : Nat) (st : ParseState), pairs.length < fuel →
      parseLoop f32 (pre.length + 2 * pairs.length) (pre ++ flattenPairs pairs) fuel
          pre.length st
        = parsePairs f32 pairs pre.length st := by
  induction pairs with
  | nil =>
    intro pre fuel st hf
    cases fuel with
    | zero => omega
    | succ f => simp [parseLoop, parsePairs]
  | cons p rest ih =>
    intro pre fuel st hf
    cases fuel with
    | zero => omega
    | succ f =>
      have hlt : pre.length < pre.length + 2 * (p :: rest).length := by
        simp only [List.length_cons]; omega
      have hflat : pre ++ flattenPairs (p :: rest) = pre ++ p.1 :: p.2 :: flattenPairs rest := by
        simp [flattenPairs]
      have hpre : pre ++ p.1 :: p.2 :: flattenPairs rest
          = (pre ++ [p.1, p.2]) ++ flattenPairs rest := by simp
      have hlen : pre.length + 2 * (p :: rest).length
          = (pre ++ [p.1, p.2]).length + 2 * rest.length := by
        simp only [List.length_cons, List.length_append, List.length_nil]; omega
      have hidx : pre.length + 2 = (pre ++ [p.1, p.2]).length := by simp
      have hrec := fun st2 => ih (pre ++ [p.1, p.2]) f st2 (by simp at hf; omega)
      rw [parseLoop, if_pos hlt, hflat, getElem?_prefix_cons, getElem?_prefix_cons_succ]
      simp only [parsePairs]
      by_cases hc : mxIsChar p.1 = true
      · by_cases hn : mxIsNumeric p.2 = true
        · simp only [hc, hn, Bool.not_true, Bool.false_eq_true, if_false]
          cases hass : assignParam f32 (mxArrayToString p.1) (mxGetScalar p.2) st.options with
          | none => simp
          | some o =>
            simp only []
            rw [hpre, hlen, hidx]
            exact hrec _
        · simp [hc, hn]
      · simp [hc]

/-- With an odd argument count `1 + 2 * k` and `k` pairs after the first
argument, `parse_input_options` is `parsePairs` started at index 1. -/
theorem parse_input_options_eq_parsePairs (f32 : ℚ → ℚ) (options : KAZEOptions)
    (first : MxArray) (pairs : List (MxArray × MxArray)) :
    parse_input_options f32 options (1 + 2 * pairs.length) (first :: flattenPairs pairs)
      = parsePairs f32 pairs 1 { options := options, printed := [], reads := [] } := by
  unfold parse_input_options
  by_cases h3 : 1 + 2 * pairs.length ≥ 3
  · rw [if_pos h3]
    have h := parseLoop_eq_parsePairs f32 pairs [first] (1 + 2 * pairs.length)
      { options := options, printed := [], reads := [] } (by omega)
    simpa using h
  · rw [if_neg h3]
    have hnil : pairs = [] := by
      cases pairs with
      | nil => rfl
      | cons p rest => simp only [List.length_cons] at h3; omega
    subst hnil
    simp [parsePairs]

/-- After the type and arity checks, `mexFunction` is decided by the result of
`parse_input_options`. -/
theorem mexFunction_of_parse (f32 : ℚ → ℚ) (kaze : KAZE) (options : KAZEOptions)
    (nlhs nrhs : Nat) (image : MxArray) (args : List MxArray)
    (himg : mxIsUint8 image = true) (hodd : nrhs % 2 = 1) :
    mexFunction f32 kaze options nlhs nrhs (image :: args)
      = match (parse_input_options f32 options nrhs (image :: args)).status with
        | Status.returned 0 =>
          extract f32 kaze
            { options := (parse_input_options f32 options nrhs (image :: args)).state.options,
              plhs0 := none, plhs1 := none,
              log := (parse_input_options f32 options nrhs
                (image :: args)).state.printed.map Event.print } nlhs image
        | Status.returned _ =>
          { state :=
              { options := (parse_input_options f32 options nrhs (image :: args)).state.options,
                plhs0 := none, plhs1 := none,
                log := (parse_input_options f32 options nrhs
                  (image :: args)).state.printed.map Event.print },
            status := Status.returned 0 }
        | s =>
          { state :=
              { options := (parse_input_options f32 options nrhs (image :: args)).state.options,
                plhs0 := none, plhs1 := none,
                log := (parse_input_options f32 options nrhs
                  (image :: args)).state.printed.map Event.print },
            status := s } := by
  have h0 : ¬ (nrhs = 0) := by omega
  have h2 : ¬ (nrhs % 2 = 0) := by omega
  by_cases h1 : nrhs > 1
  · simp only [mexFunction, h0, himg, h2, h1, if_false, if_true, List.getElem?_cons_zero,
      Bool.not_true, Bool.false_eq_true]
  · have h3 : ¬ (nrhs ≥ 3) := by omega
    simp [mexFunction, h0, himg, h2, h1, parse_input_options, h3]

/-! ## Lemmas on the parsing of pairs -/

/-- The `strcmp` chain accepts exactly the recognised names, and on them it
performs the write the spec describes. -/
theorem assignParam_eq (f32 : ℚ → ℚ) (name : String) (v : ℚ) (o : KAZEOptions) :
    assignParam f32 name v o
      = if name ∈ recognizedNames then some (writeField f32 name v o) else none := by
  unfold assignParam writeField recognizedNames
  by_cases h1 : name = "soffset"
  · subst h1; simp
  by_cases h2 : name = "omax"
  · subst h2; simp
  by_cases h3 : name = "dthreshold"
  · subst h3; simp
  by_cases h4 : name = "sderivatives"
  · subst h4; simp
  by_cases h5 : name = "nsublevels"
  · subst h5; simp
  by_cases h6 : name = "diffusivity"
  · subst h6; simp
  by_cases h7 : name = "descriptor"
  · subst h7; simp
  by_cases h8 : name = "verbose"
  · subst h8; simp
  by_cases h9 : name = "save_scale_space"
  · subst h9; simp
  simp [h1, h2, h3, h4, h5, h6, h7, h8, h9]

theorem writeFields_nil (f32 : ℚ → ℚ) (o : KAZEOptions) : writeFields f32 [] o = o := rfl

theorem writeFields_cons (f32 : ℚ → ℚ) (p : MxArray × MxArray)
    (rest : List (MxArray × MxArray)) (o : KAZEOptions) :
    writeFields f32 (p :: rest) o
      = writeFields f32 rest (writeField f32 (mxArrayToString p.1) (mxGetScalar p.2) o) := rfl

theorem writeFields_snoc (f32 : ℚ → ℚ) (ps : List (MxArray × MxArray))
    (p : MxArray × MxArray) (o : KAZEOptions) :
    writeFields f32 (ps ++ [p]) o
      = writeField f32 (mxArrayToString p.1) (mxGetScalar p.2) (writeFields f32 ps o) := by
  simp [writeFields, List.foldl_append]

theorem lastValue_nil (key : String) : lastValue key [] = none := rfl

theorem lastValue_snoc (key : String) (ps : List (MxArray × MxArray))
    (p : MxArray × MxArray) :
    lastValue key (ps ++ [p])
      = if mxArrayToString p.1 = key then some (mxGetScalar p.2) else lastValue key ps := by
  unfold lastValue
  rw [List.reverse_append, List.reverse_singleton, List.singleton_append, List.find?_cons]
  by_cases h : mxArrayToString p.1 = key <;> simp [h]

/-- Pairs that are well typed and recognised are all consumed: the loop returns
0, prints nothing and leaves the options updated pair by pair. -/
theorem parsePairs_recognized (f32 : ℚ → ℚ) (pairs : List (MxArray × MxArray)) :
    ∀ (i : Nat) (st : ParseState),
      (∀ p ∈ pairs, wellTyped p = true ∧ hasRecognizedName p = true) →
      (parsePairs f32 pairs i st).status = Status.returned 0
        ∧ (parsePairs f32 pairs i st).state.options = writeFields f32 pairs st.options
        ∧ (parsePairs f32 pairs i st).state.printed = st.printed := by
  induction pairs with
  | nil => intro i st _; simp [parsePairs, writeFields_nil]
  | cons p rest ih =>
    intro i st h
    have hp := h p (List.mem_cons_self _ _)
    have hrest : ∀ q ∈ rest, wellTyped q = true ∧ hasRecognizedName q = true :=
      fun q hq => h q (List.mem_cons_of_mem _ hq)
    have hc : mxIsChar p.1 = true := by
      have := hp.1; simp [wellTyped] at this; exact this.1
    have hn : mxIsNumeric p.2 = true := by
      have := hp.1; simp [wellTyped] at this; exact this.2
    have hr : mxArrayToString p.1 ∈ recognizedNames := by
      have := hp.2; simpa [hasRecognizedName] using this
    have hrec := ih (i + 2)
      { st with
        options := writeField f32 (mxArrayToString p.1) (mxGetScalar p.2) st.options,
        reads := st.reads ++ [i, i + 1] } hrest
    simp only [parsePairs, hc, hn, Bool.not_true, Bool.false_eq_true, if_false,
      assignParam_eq, hr, if_true, writeFields_cons]
    exact hrec

/-- Well-typed pairs: the loop fails with `kaze:badParamName` at the first
unrecognised name, after printing it, and returns 0 when there is none. -/
theorem parsePairs_wellTyped (f32 : ℚ → ℚ) (pairs : List (MxArray × MxArray)) :
    ∀ (i : Nat) (st : ParseState), (∀ p ∈ pairs, wellTyped p = true) →
      match pairs.find? (fun p => !hasRecognizedName p) with
      | some bad =>
        (parsePairs f32 pairs i st).status = Status.error MexError.badParamName
          ∧ (parsePairs f32 pairs i st).state.printed
            = st.printed ++ ["Bad Param name: " ++ mxArrayToString bad.1 ++ "\n"]
      | none =>
        (parsePairs f32 pairs i st).status = Status.returned 0
          ∧ (parsePairs f32 pairs i st).state.printed = st.printed := by
  induction pairs with
  | nil => intro i st _; simp [parsePairs]
  | cons p rest ih =>
    intro i st h
    have hp := h p (List.mem_cons_self _ _)
    have hrest : ∀ q ∈ rest, wellTyped q = true := fun q hq => h q (List.mem_cons_of_mem _ hq)
    have hc : mxIsChar p.1 = true := by
      simp [wellTyped] at hp; exact hp.1
    have hn : mxIsNumeric p.2 = true := by
      simp [wellTyped] at hp; exact hp.2
    by_cases hr : mxArrayToString p.1 ∈ recognizedNames
    · have hb : hasRecognizedName p = true := by simp [hasRecognizedName, hr]
      have hrec := ih (i + 2)
        { st with
          options := writeField f32 (mxArrayToString p.1) (mxGetScalar p.2) st.options,
          reads := st.reads ++ [i, i + 1] } hrest
      simp only [List.find?_cons, hb, Bool.not_true, parsePairs, hc, hn, Bool.false_eq_true,
        if_false, assignParam_eq, hr, if_true]
      exact hrec
    · have hb : hasRecognizedName p = false := by simp [hasRecognizedName, hr]
      simp [List.find?_cons, hb, parsePairs, hc, hn, assignParam_eq, hr]

/-- The loop fails with `kaze:badParamTypes` at a pair whose value is not
numeric when no well-typed pair before it has an unrecognised name. -/
theorem parsePairs_badType (f32 : ℚ → ℚ) (before : List (MxArray × MxArray))
    (bad : MxArray × MxArray) (after : List (MxArray × MxArray)) :
    ∀ (i : Nat) (st : ParseState), mxIsNumeric bad.2 = false →
      (∀ p ∈ before, wellTyped p = true → hasRecognizedName p = true) →
      (parsePairs f32 (before ++ bad :: after) i st).status
        = Status.error MexError.badParamTypes := by
  induction before with
  | nil =>
    intro i st hbad _
    by_cases hc : mxIsChar bad.1 = true <;> simp [parsePairs, hc, hbad]
  | cons p rest ih =>
    intro i st hbad h
    have hrest : ∀ q ∈ rest, wellTyped q = true → hasRecognizedName q = true :=
      fun q hq => h q (List.mem_cons_of_mem _ hq)
    by_cases hc : mxIsChar p.1 = true
    · by_cases hn : mxIsNumeric p.2 = true
      · have hw : wellTyped p = true := by simp [wellTyped, hc, hn]
        have hr : mxArrayToString p.1 ∈ recognizedNames := by
          have := h p (List.mem_cons_self _ _) hw
          simpa [hasRecognizedName] using this
        have hrec := ih (i + 2)
          { st with
            options := writeField f32 (mxArrayToString p.1) (mxGetScalar p.2) st.options,
            reads := st.reads ++ [i, i + 1] } hbad hrest
        simp only [List.cons_append, parsePairs, hc, hn, Bool.not_true, Bool.false_eq_true,
          if_false, assignParam_eq, hr, if_true]
        exact hrec
      · simp [parsePairs, hc, hn]
    · simp [parsePairs, hc]

/-- One write of the spec touches the field its name designates and no other. -/
theorem writeField_fields (f32 : ℚ → ℚ) (name : String) (v : ℚ) (o : KAZEOptions) :
    (writeField f32 name v o).soffset = (if name = "soffset" then f32 v else o.soffset)
      ∧ (writeField f32 name v o).omax = (if name = "omax" then doubleToInt v else o.omax)
      ∧ (writeField f32 name v o).nsublevels
          = (if name = "nsublevels" then doubleToInt v else o.nsublevels)
      ∧ (writeField f32 name v o).diffusivity
          = (if name = "diffusivity" then doubleToInt v else o.diffusivity)
      ∧ (writeField f32 name v o).dthreshold
          = (if name = "dthreshold" then f32 v else o.dthreshold)
      ∧ (writeField f32 name v o).sderivatives
          = (if name = "sderivatives" then f32 v else o.sderivatives)
      ∧ (writeField f32 name v o).descriptor
          = (if name = "descriptor" then doubleToInt v else o.descriptor)
      ∧ (writeField f32 name v o).verbosity
          = (if name = "verbose" then doubleToBool v else o.verbosity)
      ∧ (writeField f32 name v o).save_scale_space
          = (if name = "save_scale_space" then doubleToBool v else o.save_scale_space)
      ∧ (writeField f32 name v o).img_width = o.img_width
      ∧ (writeField f32 name v o).img_height = o.img_height := by
  unfold writeField
  by_cases h1 : name = "soffset"
  · subst h1; simp
  by_cases h2 : name = "omax"
  · subst h2; simp
  by_cases h3 : name = "nsublevels"
  · subst h3; simp
  by_cases h4 : name = "diffusivity"
  · subst h4; simp
  by_cases h5 : name = "dthreshold"
  · subst h5; simp
  by_cases h6 : name = "sderivatives"
  · subst h6; simp
  by_cases h7 : name = "descriptor"
  · subst h7; simp
  by_cases h8 : name = "verbose"
  · subst h8; simp
  by_cases h9 : name = "save_scale_space"
  · subst h9; simp
  simp [h1, h2, h3, h4, h5, h6, h7, h8, h9]

/-- After the pair-by-pair update every field holds the converted scalar of the
last pair that names it, or its initial value when no pair names it; the image
size is never written. -/
theorem writeFields_fields (f32 : ℚ → ℚ) (pairs : List (MxArray × MxArray))
    (o : KAZEOptions) :
    (writeFields f32 pairs o).soffset = (lastValue "soffset" pairs).elim o.soffset f32
      ∧ (writeFields f32 pairs o).omax = (lastValue "omax" pairs).elim o.omax doubleToInt
      ∧ (writeFields f32 pairs o).nsublevels
          = (lastValue "nsublevels" pairs).elim o.nsublevels doubleToInt
      ∧ (writeFields f32 pairs o).diffusivity
          = (lastValue "diffusivity" pairs).elim o.diffusivity doubleToInt
      ∧ (writeFields f32 pairs o).dthreshold
          = (lastValue "dthreshold" pairs).elim o.dthreshold f32
      ∧ (writeFields f32 pairs o).sderivatives
          = (lastValue "sderivatives" pairs).elim o.sderivatives f32
      ∧ (writeFields f32 pairs o).descriptor
          = (lastValue "descriptor" pairs).elim o.descriptor doubleToInt
      ∧ (writeFields f32 pairs o).verbosity
          = (lastValue "verbose" pairs).elim o.verbosity doubleToBool
      ∧ (writeFields f32 pairs o).save_scale_space
          = (lastValue "save_scale_space" pairs).elim o.save_scale_space doubleToBool
      ∧ (writeFields f32 pairs o).img_width = o.img_width
      ∧ (writeFields f32 pairs o).img_height = o.img_height := by
  induction pairs using List.reverseRecOn with
  | nil => simp [writeFields_nil, lastValue_nil]
  | append_singleton ps p ih =>
    obtain ⟨i1, i2, i3, i4, i5, i6, i7, i8, i9, i10, i11⟩ := ih
    obtain ⟨w1, w2, w3, w4, w5, w6, w7, w8, w9, w10, w11⟩ :=
      writeField_fields f32 (mxArrayToString p.1) (mxGetScalar p.2) (writeFields f32 ps o)
    simp only [writeFields_snoc, lastValue_snoc]
    refine ⟨?_, ?_, ?_, ?_, ?_, ?_, ?_, ?_, ?_, ?_, ?_⟩
    · rw [w1, i1]; split_ifs <;> rfl
    · rw [w2, i2]; split_ifs <;> rfl
    · rw [w3, i3]; split_ifs <;> rfl
    · rw [w4, i4]; split_ifs <;> rfl
    · rw [w5, i5]; split_ifs <;> rfl
    · rw [w6, i6]; split_ifs <;> rfl
    · rw [w7, i7]; split_ifs <;> rfl
    · rw [w8, i8]; split_ifs <;> rfl
    · rw [w9, i9]; split_ifs <;> rfl
    · rw [w10, i10]
    · rw [w11, i11]

/-- The part of `mexFunction` after option parsing ends normally or with
`kaze:unknownDescType`. -/
theorem extract_status (f32 : ℚ → ℚ) (kaze : KAZE) (st : MexState) (nlhs : Nat) (image : MxArray) :
    (extract f32 kaze st nlhs image).status = Status.returned 0
      ∨ (extract f32 kaze st nlhs image).status = Status.error MexError.unknownDescType := by
  unfold extract
  by_cases h2 : nlhs = 2
  · simp only [h2, if_true]
    split <;> simp
  · simp [h2]

/-- A call with a uint8 image whose trailing arguments are well-typed recognised
pairs goes on to ingestion with the options updated pair by pair. -/
theorem mexFunction_recognized (f32 : ℚ → ℚ) (kaze : KAZE) (options : KAZEOptions)
    (nlhs : Nat) (image : MxArray) (pairs : List (MxArray × MxArray))
    (himg : mxIsUint8 image = true)
    (h : ∀ p ∈ pairs, wellTyped p = true ∧ hasRecognizedName p = true) :
    mexFunction f32 kaze options nlhs (1 + 2 * pairs.length) (image :: flattenPairs pairs)
      = extract f32 kaze
          { options := writeFields f32 pairs options, plhs0 := none, plhs1 := none, log := [] }
          nlhs image := by
  have hodd : (1 + 2 * pairs.length) % 2 = 1 := by omega
  obtain ⟨hs, ho, hp⟩ := parsePairs_recognized f32 pairs 1
    { options := options, printed := [], reads := [] } h
  rw [mexFunction_of_parse f32 kaze options nlhs _ image _ himg hodd,
    parse_input_options_eq_parsePairs, hs, ho, hp]
  rfl

/-! ## Lemmas on the encoding loops -/

theorem writeKeypoint_some (kpts : List KeyPoint) (buf : List ℚ) (i : Nat) (k : KeyPoint)
    (h : kpts[i]? = some k) :
    writeKeypoint kpts buf i = (buf.set i k.y).set (kpts.length + i) k.x := by
  unfold writeKeypoint
  rw [h]

theorem writeKeypoint_length (kpts : List KeyPoint) (buf : List ℚ) (i : Nat) :
    (writeKeypoint kpts buf i).length = buf.length := by
  unfold writeKeypoint
  split <;> simp

theorem foldl_writeKeypoint_length (kpts : List KeyPoint) (buf : List ℚ) (k : Nat) :
    ((List.range k).foldl (writeKeypoint kpts) buf).length = buf.length := by
  induction k with
  | zero => simp
  | succ k ih => rw [List.range_succ, List.foldl_append]; simp [writeKeypoint_length, ih]

/-- Elements of the keypoint buffer after the first `k` iterations of the loop. -/
theorem foldl_writeKeypoint_getElem? (kpts : List KeyPoint) (buf : List ℚ)
    (hlen : buf.length = 2 * kpts.length) :
    ∀ k, k ≤ kpts.length → ∀ j,
      ((List.range k).foldl (writeKeypoint kpts) buf)[j]?
        = if j < k then kpts[j]?.map KeyPoint.y
          else if kpts.length ≤ j ∧ j < kpts.length + k then
            kpts[j - kpts.length]?.map KeyPoint.x
          else buf[j]? := by
  intro k
  induction k with
  | zero =>
    intro _ j
    have h : ¬ (kpts.length ≤ j ∧ j < kpts.length + 0) := by omega
    rw [if_neg (Nat.not_lt_zero j), if_neg h]
    rfl
  | succ k ih =>
    intro hk j
    have hk2 : k < kpts.length := by omega
    have ihk := ih (by omega)
    rw [List.range_succ, List.foldl_append]
    simp only [List.foldl_cons, List.foldl_nil]
    have hget : kpts[k]? = some kpts[k] := List.getElem?_eq_getElem hk2
    have hL := foldl_writeKeypoint_length kpts buf k
    rw [writeKeypoint_some kpts _ k kpts[k] hget]
    rw [List.getElem?_set, List.getElem?_set, List.length_set, hL, hlen, ihk j]
    by_cases h1 : kpts.length + k = j
    · subst h1
      have h2 : ¬ (kpts.length + k < k + 1) := by omega
      have h3 : kpts.length ≤ kpts.length + k
          ∧ kpts.length + k < kpts.length + (k + 1) := by omega
      have h4 : kpts.length + k - kpts.length = k := by omega
      have h5 : kpts.length + k < 2 * kpts.length := by omega
      rw [if_pos rfl, if_pos h5, if_neg h2, if_pos h3, h4, hget]
      rfl
    · by_cases h2 : k = j
      · subst h2
        have h5 : k < 2 * kpts.length := by omega
        simp [h1, hget, h5]
      · have e1 : (j < k + 1) ↔ (j < k) := by omega
        have e2 : (kpts.length ≤ j ∧ j < kpts.length + (k + 1))
            ↔ (kpts.length ≤ j ∧ j < kpts.length + k) := by omega
        simp only [h1, h2, if_false, e1, e2]

/-! ## Lemmas on the conversion to `float` -/

theorem roundHalfEven_eq (x : ℚ) (m : ℤ) (h1 : (m : ℚ) - 1 / 2 < x) (h2 : x < m + 1 / 2) :
    roundHalfEven x = m := by
  unfold roundHalfEven
  by_cases h : (m : ℚ) ≤ x
  · have hf : ⌊x⌋ = m := Int.floor_eq_iff.mpr ⟨h, by linarith⟩
    rw [hf, if_pos (by linarith)]
  · have hlt : x < m := lt_of_not_le h
    have hf : ⌊x⌋ = m - 1 :=
      Int.floor_eq_iff.mpr ⟨by push_cast; linarith, by push_cast; linarith⟩
    rw [hf]
    have c1 : ¬ (x - ((m - 1 : ℤ) : ℚ) < 1 / 2) := by push_cast; linarith
    have c2 : 1 / 2 < x - ((m - 1 : ℤ) : ℚ) := by push_cast; linarith
    rw [if_neg c1, if_pos c2]
    ring

/-- The `float` nearest to a positive `q` of binary exponent `k` in the normal
range is `m * 2^(k - 23)` when `m` is the integer nearest to `q / 2^(k - 23)`. -/
theorem float32_eq (q : ℚ) (k m : ℤ) (hq : 0 < q) (hlo : (2 : ℚ) ^ k ≤ q)
    (hhi : q < (2 : ℚ) ^ (k + 1)) (hk : -126 ≤ k)
    (h1 : (m : ℚ) - 1 / 2 < q / 2 ^ (k - 23)) (h2 : q / 2 ^ (k - 23) < m + 1 / 2) :
    float32 q = m * 2 ^ (k - 23) := by
  have hlog : Int.log 2 |q| = k := by
    rw [abs_of_pos hq]
    apply le_antisymm
    · have := (Int.lt_zpow_iff_log_lt (R := ℚ) (b := 2) (by norm_num) hq (x := k + 1)).mp
        (by exact_mod_cast hhi)
      omega
    · exact (Int.zpow_le_iff_le_log (R := ℚ) (b := 2) (by norm_num) hq).mp
        (by exact_mod_cast hlo)
  unfold float32
  rw [if_neg (ne_of_gt hq), hlog, max_eq_left hk, roundHalfEven_eq _ m h1 h2]

theorem float32_zero : float32 0 = 0 := by
  unfold float32
  rw [if_pos rfl]

/-- The `float` nearest to the double `1.0/255.0` is `8421505 / 2^31`. -/
theorem float32_scale255 : float32 scale255 = 8421505 / 2147483648 := by
  rw [float32_eq scale255 (-8) 8421505 (by norm_num [scale255]) (by norm_num [scale255])
    (by norm_num [scale255]) (by norm_num) (by norm_num [scale255])
    (by norm_num [scale255])]
  norm_num

theorem float32_one : float32 1 = 1 := by
  rw [float32_eq 1 0 (2 ^ 23) (by norm_num) (by norm_num) (by norm_num) (by norm_num)
    (by norm_num) (by norm_num)]
  norm_num

theorem cvtScale_zero : cvtScale float32 scale255 0 0 = 0 := by
  unfold cvtScale
  rw [zero_mul, float32_zero, add_zero, float32_zero]

theorem cvtScale_255 : cvtScale float32 scale255 0 255 = 1 := by
  have hprod : float32 (255 * (8421505 / 2147483648)) = 1 := by
    rw [float32_eq (255 * (8421505 / 2147483648)) 0 (2 ^ 23) (by norm_num) (by norm_num)
      (by norm_num) (by norm_num) (by norm_num) (by norm_num)]
    norm_num
  unfold cvtScale
  rw [float32_scale255, hprod, float32_zero, add_zero, float32_one]

theorem cvtScale_10 : cvtScale float32 scale255 0 10 = 10526881 / 268435456 := by
  have hprod : float32 (10 * (8421505 / 2147483648)) = 10526881 / 268435456 := by
    rw [float32_eq (10 * (8421505 / 2147483648)) (-5) 10526881 (by norm_num) (by norm_num)
      (by norm_num) (by norm_num) (by norm_num) (by norm_num)]
    norm_num
  have hfix : float32 (10526881 / 268435456) = 10526881 / 268435456 := by
    rw [float32_eq (10526881 / 268435456) (-5) 10526881 (by norm_num) (by norm_num)
      (by norm_num) (by norm_num) (by norm_num) (by norm_num)]
    norm_num
  unfold cvtScale
  rw [float32_scale255, hprod, float32_zero, add_zero, hfix]

theorem float32_two : float32 2 = 2 := by
  rw [float32_eq 2 1 (2 ^ 23) (by norm_num) (by norm_num) (by norm_num) (by norm_num)
    (by norm_num) (by norm_num)]
  norm_num

theorem float32_five : float32 5 = 5 := by
  rw [float32_eq 5 2 (5 * 2 ^ 21) (by norm_num) (by norm_num) (by norm_num) (by norm_num)
    (by norm_num) (by norm_num)]
  norm_num

/-! ## Lemmas on ingestion -/

theorem sizeToInt_of_lt (n : Nat) (h : n < 2 ^ 31) : sizeToInt n = (n : Int) := by
  have hmod : n % 2 ^ 32 = n := Nat.mod_eq_of_lt (by omega)
  unfold sizeToInt
  rw [hmod, if_pos h]

theorem validImage_iff (a : MxArray) :
    validImage a = true ↔
      mxIsUint8 a = true ∧ a.M < 2 ^ 31 ∧ a.N < 2 ^ 31 ∧ a.data.length = a.M * a.N
        ∧ ∀ x ∈ a.data, x.den = 1 ∧ 0 ≤ x.num ∧ x.num < 256 := by
  simp [validImage, and_assoc]

/-- The options and the float image produced by ingestion, written out. -/
theorem ingest_eq (f32 : ℚ → ℚ) (options : KAZEOptions) (image : MxArray) :
    ingest f32 options image
      = ({ options with img_width := sizeToInt image.M, img_height := sizeToInt image.N },
          { type := CV_8U, rows := sizeToInt image.N, cols := sizeToInt image.M,
            data := image.data },
          { type := CV_32F, rows := sizeToInt image.N, cols := sizeToInt image.M,
            data := image.data.map (cvtScale f32 scale255 0) }) := rfl

/-- Pixel `(r, c)` of the float image is host element `(c, r)` divided by 255. -/
theorem ingest_pixel (f32 : ℚ → ℚ) (options : KAZEOptions) (image : MxArray)
    (hM : image.M < 2 ^ 31) (hN : image.N < 2 ^ 31)
    (hlen : image.data.length = image.M * image.N)
    (r c : Nat) (hr : r < image.N) (hc : c < image.M) :
    ∃ v : ℚ, image.elem c r = some v
      ∧ (ingest f32 options image).2.1.elem r c = some v
      ∧ (ingest f32 options image).2.2.elem r c = some (cvtScale f32 scale255 0 v) := by
  have hidx : r * image.M + c < image.data.length := by
    rw [hlen]
    calc r * image.M + c < r * image.M + image.M := by omega
      _ = image.M * (r + 1) := by ring
      _ ≤ image.M * image.N := Nat.mul_le_mul_left _ hr
  have hcomm : c + r * image.M = r * image.M + c := by omega
  have hget : image.data[r * image.M + c]? = some (image.data[r * image.M + c]) :=
    List.getElem?_eq_getElem hidx
  have hr2 : ((r : Nat) : Int) < ((image.N : Nat) : Int) := by exact_mod_cast hr
  have hc2 : ((c : Nat) : Int) < ((image.M : Nat) : Int) := by exact_mod_cast hc
  refine ⟨image.data[r * image.M + c], ?_, ?_, ?_⟩
  · unfold MxArray.elem
    rw [if_pos ⟨hc, hr⟩, hcomm, hget]
  · rw [ingest_eq]
    simp only [Mat.elem, sizeToInt_of_lt _ hM, sizeToInt_of_lt _ hN]
    rw [if_pos ⟨hr2, hc2⟩, Int.toNat_ofNat, hget]
  · rw [ingest_eq]
    simp only [Mat.elem, sizeToInt_of_lt _ hM, sizeToInt_of_lt _ hN]
    rw [if_pos ⟨hr2, hc2⟩, Int.toNat_ofNat, List.getElem?_map, hget]
    rfl

/-! ## Argument validation -/

/-- Claim C1: a call whose first argument is a uint8 image and whose number of
trailing arguments is odd ends with `kaze:badArgNum`; both output slots are
unset and nothing was printed, parsed or detected, whatever the trailing
arguments are. -/
theorem odd_trailing_fails_badArgNum (f32 : ℚ → ℚ) (kaze : KAZE) (options : KAZEOptions)
    (nlhs : Nat) (image : MxArray) (args : List MxArray)
    (himg : mxIsUint8 image = true) (hodd : args.length % 2 = 1) :
    (mexFunction f32 kaze options nlhs (1 + args.length) (image :: args)).status
        = Status.error MexError.badArgNum
      ∧ (mexFunction f32 kaze options nlhs (1 + args.length) (image :: args)).state
        = { options := options, plhs0 := none, plhs1 := none, log := [] } := by
  have h0 : ¬ (1 + args.length = 0) := by omega
  have h2 : (1 + args.length) % 2 = 0 := by omega
  simp [mexFunction, h0, himg, h2]

/-- Witness of claim C1: the sample image followed by the single argument
`"soffset"`. -/
theorem odd_trailing_fails_badArgNum_witness :
    mxIsUint8 sampleImage = true ∧ [mxCreateString "soffset"].length % 2 = 1
      ∧ (mexFunction float32 sampleKAZE sampleOptions 1 (1 + [mxCreateString "soffset"].length)
          (sampleImage :: [mxCreateString "soffset"])).status
        = Status.error MexError.badArgNum :=
  ⟨by decide, by decide,
    (odd_trailing_fails_badArgNum float32 sampleKAZE sampleOptions 1 sampleImage
      [mxCreateString "soffset"] (by decide) (by decide)).1⟩

/-- Claim C3: a call with at least one argument whose first argument is not a
uint8 array ends with `kaze:notUint8`, for every argument count and every
content of the trailing arguments; the options are still the initial ones,
nothing was printed and no output slot is set, so neither the arity check nor
option parsing nor image conversion took place. -/
theorem non_uint8_fails_notUint8 (f32 : ℚ → ℚ) (kaze : KAZE) (options : KAZEOptions)
    (nlhs nrhs : Nat) (image : MxArray) (args : List MxArray)
    (hn : 1 ≤ nrhs) (himg : mxIsUint8 image = false) :
    mexFunction f32 kaze options nlhs nrhs (image :: args)
      = { state := { options := options, plhs0 := none, plhs1 := none, log := [] },
          status := Status.error MexError.notUint8 } := by
  have h0 : ¬ (nrhs = 0) := by omega
  simp [mexFunction, h0, himg]

/-- Witness of claim C3: a double image followed by an odd number of
arguments, here one ill-typed argument. -/
theorem non_uint8_fails_notUint8_witness :
    1 ≤ 2 ∧ mxIsUint8 sampleDoubleImage = false
      ∧ mexFunction float32 sampleKAZE sampleOptions 2 2 (sampleDoubleImage :: [sampleImage])
        = { state := { options := sampleOptions, plhs0 := none, plhs1 := none, log := [] },
            status := Status.error MexError.notUint8 } :=
  ⟨by decide, by decide,
    non_uint8_fails_notUint8 float32 sampleKAZE sampleOptions 2 2 sampleDoubleImage [sampleImage]
      (by decide) (by decide)⟩

/-- Claim C2, as amended: with a uint8 image and exactly the two trailing
arguments `"soffset", 2.0` the call does not end with `kaze:badArgNum`; option
parsing returns 0 with `soffset` set to the converted 2.0 and the other options
unchanged, and the call goes on to ingestion with these options. -/
theorem soffset_pair_is_parsed (f32 : ℚ → ℚ) (kaze : KAZE) (options : KAZEOptions)
    (nlhs : Nat) (image name value : MxArray)
    (himg : mxIsUint8 image = true) (hname : mxIsChar name = true)
    (htext : mxArrayToString name = "soffset") (hvalue : mxIsNumeric value = true)
    (hscalar : mxGetScalar value = 2) :
    (mexFunction f32 kaze options nlhs 3 [image, name, value]).status
        ≠ Status.error MexError.badArgNum
      ∧ (parse_input_options f32 options 3 [image, name, value]).status = Status.returned 0
      ∧ (parse_input_options f32 options 3 [image, name, value]).state.options
          = { options with soffset := f32 2 }
      ∧ mexFunction f32 kaze options nlhs 3 [image, name, value]
          = extract f32 kaze
              { options := { options with soffset := f32 2 }, plhs0 := none, plhs1 := none,
                log := [] } nlhs image := by
  have hp : ∀ p ∈ [(name, value)], wellTyped p = true ∧ hasRecognizedName p = true := by
    intro p hmem
    simp only [List.mem_singleton] at hmem
    subst hmem
    simp [wellTyped, hasRecognizedName, hname, hvalue, htext, recognizedNames]
  have hw : writeFields f32 [(name, value)] options = { options with soffset := f32 2 } := by
    simp [writeFields, writeField, htext, hscalar]
  have hm := mexFunction_recognized f32 kaze options nlhs image [(name, value)] himg hp
  have hq := parsePairs_recognized f32 [(name, value)] 1
    { options := options, printed := [], reads := [] } hp
  have he := parse_input_options_eq_parsePairs f32 options image [(name, value)]
  rw [hw] at hm
  rw [← he, hw] at hq
  have hm2 : mexFunction f32 kaze options nlhs 3 [image, name, value]
      = extract f32 kaze
          { options := { options with soffset := f32 2 }, plhs0 := none, plhs1 := none,
            log := [] } nlhs image := hm
  refine ⟨?_, hq.1, hq.2.1, hm2⟩
  rw [hm2]
  rcases extract_status f32 kaze
    { options := { options with soffset := f32 2 }, plhs0 := none, plhs1 := none, log := [] }
    nlhs image with h | h <;> rw [h] <;> simp

/-- Witness of claim C2 as amended: the sample image followed by `"soffset"`
and the double 2. -/
theorem soffset_pair_is_parsed_witness :
    (mexFunction float32 sampleKAZE sampleOptions 1 3
        [sampleImage, mxCreateString "soffset", mxCreateDoubleScalar 2]).status
      ≠ Status.error MexError.badArgNum :=
  (soffset_pair_is_parsed float32 sampleKAZE sampleOptions 1 sampleImage (mxCreateString "soffset")
    (mxCreateDoubleScalar 2) (by decide) (by decide) (by decide) (by decide) (by rfl)).1

/-- Counterexample to claim C2 as stated: the call with the valid uint8 sample
image and the trailing arguments `"soffset", 2.0` ends normally, not with
`kaze:badArgNum`. -/
theorem soffset_pair_counterexample :
    validImage sampleImage = true
      ∧ (mexFunction float32 sampleKAZE sampleOptions 1 3
          [sampleImage, mxCreateString "soffset", mxCreateDoubleScalar 2]).status
        = Status.returned 0
      ∧ (mexFunction float32 sampleKAZE sampleOptions 1 3
          [sampleImage, mxCreateString "soffset", mxCreateDoubleScalar 2]).status
        ≠ Status.error MexError.badArgNum := by
  decide

/-! ## Option parsing -/

/-- Claim C4: with a uint8 image and trailing arguments made of (text, numeric)
pairs, if some name is not one of the nine recognised names the call ends with
`kaze:badParamName` after printing the first such name, with no output set;
otherwise option parsing returns 0 and the call goes on to ingestion with the
options updated pair by pair. -/
theorem names_checked_in_order (f32 : ℚ → ℚ) (kaze : KAZE) (options : KAZEOptions)
    (nlhs : Nat) (image : MxArray) (pairs : List (MxArray × MxArray))
    (himg : mxIsUint8 image = true) (htyped : ∀ p ∈ pairs, wellTyped p = true) :
    match pairs.find? (fun p => !hasRecognizedName p) with
    | some bad =>
      (mexFunction f32 kaze options nlhs (1 + 2 * pairs.length)
          (image :: flattenPairs pairs)).status = Status.error MexError.badParamName
        ∧ (mexFunction f32 kaze options nlhs (1 + 2 * pairs.length)
            (image :: flattenPairs pairs)).state.log
          = [Event.print ("Bad Param name: " ++ mxArrayToString bad.1 ++ "\n")]
        ∧ (mexFunction f32 kaze options nlhs (1 + 2 * pairs.length)
            (image :: flattenPairs pairs)).state.plhs0 = none
        ∧ (mexFunction f32 kaze options nlhs (1 + 2 * pairs.length)
            (image :: flattenPairs pairs)).state.plhs1 = none
    | none =>
      (parse_input_options f32 options (1 + 2 * pairs.length)
          (image :: flattenPairs pairs)).status = Status.returned 0
        ∧ mexFunction f32 kaze options nlhs (1 + 2 * pairs.length)
            (image :: flattenPairs pairs)
          = extract f32 kaze
              { options := writeFields f32 pairs options, plhs0 := none, plhs1 := none,
                log := [] } nlhs image := by
  have hodd : (1 + 2 * pairs.length) % 2 = 1 := by omega
  have hw := parsePairs_wellTyped f32 pairs 1
    { options := options, printed := [], reads := [] } htyped
  cases hfind : pairs.find? (fun p => !hasRecognizedName p) with
  | some bad =>
    rw [hfind] at hw
    simp only [] at hw ⊢
    rw [mexFunction_of_parse f32 kaze options nlhs _ image _ himg hodd,
      parse_input_options_eq_parsePairs, hw.1, hw.2]
    simp
  | none =>
    have hall : ∀ p ∈ pairs, wellTyped p = true ∧ hasRecognizedName p = true := by
      intro p hp
      refine ⟨htyped p hp, ?_⟩
      have := List.find?_eq_none.mp hfind p hp
      simpa using this
    simp only []
    refine ⟨?_, mexFunction_recognized f32 kaze options nlhs image pairs himg hall⟩
    rw [parse_input_options_eq_parsePairs]
    exact (parsePairs_recognized f32 pairs 1 _ hall).1

/-- Witness of claim C4: the spec's scenario `"omax", 4, "bogus", 1` ends with
`kaze:badParamName` and the printed line cites `bogus`. -/
theorem names_checked_in_order_witness :
    mxIsUint8 sampleImage = true ∧ (∀ p ∈ bogusPairs, wellTyped p = true)
      ∧ (mexFunction float32 sampleKAZE sampleOptions 1 5
          [sampleImage, mxCreateString "omax", mxCreateDoubleScalar 4,
            mxCreateString "bogus", mxCreateDoubleScalar 1]).status
        = Status.error MexError.badParamName
      ∧ (mexFunction float32 sampleKAZE sampleOptions 1 5
          [sampleImage, mxCreateString "omax", mxCreateDoubleScalar 4,
            mxCreateString "bogus", mxCreateDoubleScalar 1]).state.log
        = [Event.print "Bad Param name: bogus\n"] :=
  have h := names_checked_in_order float32 sampleKAZE sampleOptions 1 sampleImage bogusPairs
    (by decide) (by decide)
  ⟨by decide, by decide, h.1, h.2.1⟩

/-- Claim C5, as amended: with a uint8 image and trailing arguments made of
pairs, if some pair has a non-numeric value and every (text, numeric) pair
before it has a recognised name, the call ends with `kaze:badParamTypes` and
no output is set. -/
theorem non_numeric_value_fails_badParamTypes (f32 : ℚ → ℚ) (kaze : KAZE)
    (options : KAZEOptions) (nlhs : Nat) (image : MxArray)
    (before : List (MxArray × MxArray)) (bad : MxArray × MxArray)
    (after : List (MxArray × MxArray))
    (himg : mxIsUint8 image = true) (hbad : mxIsNumeric bad.2 = false)
    (hbefore : ∀ p ∈ before, wellTyped p = true → hasRecognizedName p = true) :
    (mexFunction f32 kaze options nlhs (1 + 2 * (before ++ bad :: after).length)
        (image :: flattenPairs (before ++ bad :: after))).status
      = Status.error MexError.badParamTypes
      ∧ (mexFunction f32 kaze options nlhs (1 + 2 * (before ++ bad :: after).length)
          (image :: flattenPairs (before ++ bad :: after))).state.plhs0 = none
      ∧ (mexFunction f32 kaze options nlhs (1 + 2 * (before ++ bad :: after).length)
          (image :: flattenPairs (before ++ bad :: after))).state.plhs1 = none := by
  have hodd : (1 + 2 * (before ++ bad :: after).length) % 2 = 1 := by omega
  have hs := parsePairs_badType f32 before bad after 1
    { options := options, printed := [], reads := [] } hbad hbefore
  rw [mexFunction_of_parse f32 kaze options nlhs _ image _ himg hodd,
    parse_input_options_eq_parsePairs, hs]
  simp

/-- Witness of claim C5 as amended: `"omax", 4` followed by `"soffset", "x"`,
whose value is text. -/
theorem non_numeric_value_fails_badParamTypes_witness :
    mxIsUint8 sampleImage = true ∧ mxIsNumeric (mxCreateString "x") = false
      ∧ (mexFunction float32 sampleKAZE sampleOptions 1 5
          [sampleImage, mxCreateString "omax", mxCreateDoubleScalar 4,
            mxCreateString "soffset", mxCreateString "x"]).status
        = Status.error MexError.badParamTypes :=
  ⟨by decide, by decide,
    (non_numeric_value_fails_badParamTypes float32 sampleKAZE sampleOptions 1 sampleImage
      [(mxCreateString "omax", mxCreateDoubleScalar 4)]
      (mxCreateString "soffset", mxCreateString "x") [] (by decide) (by decide)
      (by decide)).1⟩

/-- Counterexample to claim C5 as stated: in `"bogus", 1, "omax", "x"` the
second pair has a non-numeric value, yet the call ends with
`kaze:badParamName`, raised at the first pair. -/
theorem non_numeric_value_counterexample :
    mxIsUint8 sampleImage = true
      ∧ (∃ p ∈ bogusThenTextPairs, mxIsNumeric p.2 = false)
      ∧ (mexFunction float32 sampleKAZE sampleOptions 1 (1 + 2 * bogusThenTextPairs.length)
          (sampleImage :: flattenPairs bogusThenTextPairs)).status
        = Status.error MexError.badParamName
      ∧ (mexFunction float32 sampleKAZE sampleOptions 1 (1 + 2 * bogusThenTextPairs.length)
          (sampleImage :: flattenPairs bogusThenTextPairs)).status
        ≠ Status.error MexError.badParamTypes := by
  decide

/-- Claim C6: on (text, numeric) pairs whose names are all recognised,
`parse_input_options` returns 0, prints nothing, and leaves the record equal to
the initial record updated pair by pair in argument order; in that record every
field holds the converted scalar of the last pair naming it (`verbose` names
`verbosity`), or its initial value when no pair names it, and the image size
is untouched. -/
theorem parse_writes_named_fields (f32 : ℚ → ℚ) (init : KAZEOptions) (first : MxArray)
    (pairs : List (MxArray × MxArray))
    (h : ∀ p ∈ pairs, wellTyped p = true ∧ hasRecognizedName p = true) :
    (parse_input_options f32 init (1 + 2 * pairs.length) (first :: flattenPairs pairs)).status
        = Status.returned 0
      ∧ (parse_input_options f32 init (1 + 2 * pairs.length)
          (first :: flattenPairs pairs)).state.printed = []
      ∧ (parse_input_options f32 init (1 + 2 * pairs.length)
          (first :: flattenPairs pairs)).state.options = writeFields f32 pairs init
      ∧ (writeFields f32 pairs init).soffset = (lastValue "soffset" pairs).elim init.soffset f32
      ∧ (writeFields f32 pairs init).omax = (lastValue "omax" pairs).elim init.omax doubleToInt
      ∧ (writeFields f32 pairs init).nsublevels
          = (lastValue "nsublevels" pairs).elim init.nsublevels doubleToInt
      ∧ (writeFields f32 pairs init).diffusivity
          = (lastValue "diffusivity" pairs).elim init.diffusivity doubleToInt
      ∧ (writeFields f32 pairs init).dthreshold
          = (lastValue "dthreshold" pairs).elim init.dthreshold f32
      ∧ (writeFields f32 pairs init).sderivatives
          = (lastValue "sderivatives" pairs).elim init.sderivatives f32
      ∧ (writeFields f32 pairs init).descriptor
          = (lastValue "descriptor" pairs).elim init.descriptor doubleToInt
      ∧ (writeFields f32 pairs init).verbosity
          = (lastValue "verbose" pairs).elim init.verbosity doubleToBool
      ∧ (writeFields f32 pairs init).save_scale_space
          = (lastValue "save_scale_space" pairs).elim init.save_scale_space doubleToBool
      ∧ (writeFields f32 pairs init).img_width = init.img_width
      ∧ (writeFields f32 pairs init).img_height = init.img_height := by
  obtain ⟨hs, ho, hp⟩ := parsePairs_recognized f32 pairs 1
    { options := init, printed := [], reads := [] } h
  rw [parse_input_options_eq_parsePairs]
  exact ⟨hs, hp, ho, writeFields_fields f32 pairs init⟩

/-- Witness of claim C6: for `"omax", 4, "soffset", 2, "omax", 7,
"nsublevels", 3e9, "dthreshold", 5` the parse returns 0 and yields the sample
options with `soffset = 2`, `omax = 7` (the last of the two values given for
`omax`), `dthreshold = 5` and `nsublevels = INT_MIN`, the result of converting
the out-of-range 3e9 to `int`; every field differs from its default. -/
theorem parse_writes_named_fields_witness :
    (∀ p ∈ repeatedPairs, wellTyped p = true ∧ hasRecognizedName p = true)
      ∧ (parse_input_options float32 sampleOptions 11
          [sampleImage, mxCreateString "omax", mxCreateDoubleScalar 4,
            mxCreateString "soffset", mxCreateDoubleScalar 2,
            mxCreateString "omax", mxCreateDoubleScalar 7,
            mxCreateString "nsublevels", mxCreateDoubleScalar 3000000000,
            mxCreateString "dthreshold", mxCreateDoubleScalar 5]).status = Status.returned 0
      ∧ (parse_input_options float32 sampleOptions 11
          [sampleImage, mxCreateString "omax", mxCreateDoubleScalar 4,
            mxCreateString "soffset", mxCreateDoubleScalar 2,
            mxCreateString "omax", mxCreateDoubleScalar 7,
            mxCreateString "nsublevels", mxCreateDoubleScalar 3000000000,
            mxCreateString "dthreshold", mxCreateDoubleScalar 5]).state.options
        = { sampleOptions with
            soffset := float32 2, omax := 7, nsublevels := -2147483648,
            dthreshold := float32 5 }
      ∧ float32 2 = 2 ∧ float32 5 = 5
      ∧ doubleToInt 3000000000 = INT_MIN :=
  have h := parse_writes_named_fields float32 sampleOptions sampleImage repeatedPairs (by decide)
  ⟨by decide, h.1, by rfl, float32_two, float32_five, by decide⟩

/-- Claim C7, evaluated on the code: after parsing `"descriptor", 12` the
descriptor kind is 12, outside `0..11` and different from `MSURF`; the bounds
check of lines 128-130 is not reached. -/
theorem descriptor_out_of_range_is_kept :
    (parse_input_options id sampleOptions 3
        [sampleImage, mxCreateString "descriptor", mxCreateDoubleScalar 12]).status
      = Status.returned 0
      ∧ (parse_input_options id sampleOptions 3
          [sampleImage, mxCreateString "descriptor", mxCreateDoubleScalar 12]).state.options.descriptor
        = 12
      ∧ (parse_input_options id sampleOptions 3
          [sampleImage, mxCreateString "descriptor", mxCreateDoubleScalar 12]).state.options.descriptor
        ≠ MSURF
      ∧ (mexFunction float32 sampleKAZE sampleOptions 1 3
          [sampleImage, mxCreateString "descriptor", mxCreateDoubleScalar 12]).state.options.descriptor
        = 12 := by
  decide

/-- The buffer of the keypoint output holds the `y` coordinates followed by
the `x` coordinates. -/
theorem encodeKeypoints_elem (kpts : List KeyPoint) (i : Nat) (hi : i < kpts.length) :
    (encodeKeypoints kpts).elem i 0 = some (kpts.get ⟨i, hi⟩).y
      ∧ (encodeKeypoints kpts).elem i 1 = some (kpts.get ⟨i, hi⟩).x := by
  have hlen : (mxCreateDoubleMatrix kpts.length 2).data.length = 2 * kpts.length := by
    simp [mxCreateDoubleMatrix, mxCreateNumericMatrix, Nat.mul_comm]
  have hg := foldl_writeKeypoint_getElem? kpts (mxCreateDoubleMatrix kpts.length 2).data hlen
    kpts.length (Nat.le_refl _)
  have hget : kpts[i]? = some (kpts.get ⟨i, hi⟩) := List.getElem?_eq_getElem hi
  have hM : (encodeKeypoints kpts).M = kpts.length := rfl
  have hN : (encodeKeypoints kpts).N = 2 := rfl
  have hd : (encodeKeypoints kpts).data
      = (List.range kpts.length).foldl (writeKeypoint kpts)
          (mxCreateDoubleMatrix kpts.length 2).data := rfl
  constructor
  · unfold MxArray.elem
    rw [hM, hN, if_pos ⟨hi, by decide⟩, hd, hg (i + 0 * kpts.length)]
    have h1 : i + 0 * kpts.length = i := by omega
    rw [h1, if_pos hi, hget]
    rfl
  · unfold MxArray.elem
    rw [hM, hN, if_pos ⟨hi, by decide⟩, hd, hg (i + 1 * kpts.length)]
    have h1 : ¬ (i + 1 * kpts.length < kpts.length) := by omega
    have h2 : kpts.length ≤ i + 1 * kpts.length
        ∧ i + 1 * kpts.length < kpts.length + kpts.length := by omega
    have h3 : i + 1 * kpts.length - kpts.length = i := by omega
    rw [if_neg h1, if_pos h2, h3, hget]
    rfl

theorem extract_options (f32 : ℚ → ℚ) (kaze : KAZE) (st : MexState) (nlhs : Nat) (image : MxArray) :
    (extract f32 kaze st nlhs image).state.options = (ingest f32 st.options image).1 := by
  unfold extract
  by_cases h2 : nlhs = 2
  · simp only [h2, if_true]
    split <;> rfl
  · simp [h2]

theorem extract_plhs0 (f32 : ℚ → ℚ) (kaze : KAZE) (st : MexState) (nlhs : Nat) (image : MxArray)
    (h : 1 ≤ nlhs) :
    (extract f32 kaze st nlhs image).state.plhs0
      = some (encodeKeypoints (detectedKeypoints f32 kaze st.options image)) := by
  have hpos : nlhs > 0 := h
  unfold extract detectedKeypoints
  by_cases h2 : nlhs = 2
  · simp only [h2, if_true]
    split <;> simp
  · simp [h2, hpos]

theorem extract_status_of_ne_two (f32 : ℚ → ℚ) (kaze : KAZE) (st : MexState) (nlhs : Nat) (image : MxArray)
    (h : nlhs ≠ 2) : (extract f32 kaze st nlhs image).status = Status.returned 0 := by
  unfold extract
  simp [h]

theorem extract_detect_mem (f32 : ℚ → ℚ) (kaze : KAZE) (st : MexState) (nlhs : Nat) (image : MxArray) :
    Event.detect (ingest f32 st.options image).1 (ingest f32 st.options image).2.2
      ∈ (extract f32 kaze st nlhs image).state.log := by
  unfold extract
  by_cases h2 : nlhs = 2
  · simp only [h2, if_true]
    split <;> simp
  · simp [h2]

/-! ## Result encoding and ingestion -/

/-- Claim C9, as amended: for a valid uint8 host image with `R` rows and `C`
columns, the float image handed to detection has `R` columns and `C` rows
(and type `CV_32F`). -/
theorem ingested_image_is_transposed (f32 : ℚ → ℚ) (kaze : KAZE) (options : KAZEOptions)
    (nlhs : Nat) (image : MxArray) (pairs : List (MxArray × MxArray))
    (himg : validImage image = true)
    (hpairs : ∀ p ∈ pairs, wellTyped p = true ∧ hasRecognizedName p = true) :
    Event.detect (ingest f32 (writeFields f32 pairs options) image).1
        (ingest f32 (writeFields f32 pairs options) image).2.2
        ∈ (mexFunction f32 kaze options nlhs (1 + 2 * pairs.length)
            (image :: flattenPairs pairs)).state.log
      ∧ (ingest f32 (writeFields f32 pairs options) image).2.2.cols = (mxGetM image : Int)
      ∧ (ingest f32 (writeFields f32 pairs options) image).2.2.rows = (mxGetN image : Int)
      ∧ (ingest f32 (writeFields f32 pairs options) image).2.2.type = CV_32F := by
  obtain ⟨h8, hM, hN, _, _⟩ := (validImage_iff image).mp himg
  refine ⟨?_, ?_, ?_, rfl⟩
  · rw [mexFunction_recognized f32 kaze options nlhs image pairs h8 hpairs]
    exact extract_detect_mem f32 kaze _ nlhs image
  · rw [ingest_eq]
    exact sizeToInt_of_lt _ hM
  · rw [ingest_eq]
    exact sizeToInt_of_lt _ hN

/-- Witness of claim C9 as amended: the 2-by-3 sample image gives a float
image with 2 columns and 3 rows. -/
theorem ingested_image_is_transposed_witness :
    validImage sampleImage = true
      ∧ (∀ p ∈ ([] : List (MxArray × MxArray)),
          wellTyped p = true ∧ hasRecognizedName p = true)
      ∧ (ingest float32 (writeFields float32 [] sampleOptions) sampleImage).2.2.cols
        = (mxGetM sampleImage : Int)
      ∧ (ingest float32 (writeFields float32 [] sampleOptions) sampleImage).2.2.rows
        = (mxGetN sampleImage : Int) :=
  have h := ingested_image_is_transposed float32 sampleKAZE sampleOptions 1 sampleImage []
    (by decide) (by decide)
  ⟨by decide, by decide, h.2.1, h.2.2.1⟩

/-- Counterexample to claim C9 as stated: the sample image is a valid uint8
image with `R = 2` rows and `C = 3` columns, and the float image has 2 columns
and 3 rows, not `C = 3` columns and `R = 2` rows. -/
theorem ingested_image_counterexample :
    validImage sampleImage = true ∧ mxGetM sampleImage = 2 ∧ mxGetN sampleImage = 3
      ∧ (ingest float32 sampleOptions sampleImage).2.2.cols = 2
      ∧ (ingest float32 sampleOptions sampleImage).2.2.rows = 3
      ∧ ¬ ((ingest float32 sampleOptions sampleImage).2.2.cols = (mxGetN sampleImage : Int)
          ∧ (ingest float32 sampleOptions sampleImage).2.2.rows = (mxGetM sampleImage : Int)) := by
  decide

/-- Claim C10, as amended: for a valid uint8 host image with `R` rows and `C`
columns in a call that reaches ingestion, the options end with width `R` and
height `C`, the matrix header is laid over the host buffer unchanged, and the
float image handed to detection is the transpose of the host image scaled and
converted to `float`: for `r < C` and `c < R` its pixel `(r, c)` is the `float`
conversion `cvtScale` of host element `(c, r)` with scale `1.0/255.0` and
offset 0; under the IEEE narrowing 0 gives 0 and 255 gives 1. -/
theorem ingestion_transposes_and_scales (f32 : ℚ → ℚ) (kaze : KAZE) (options : KAZEOptions)
    (nlhs : Nat) (image : MxArray) (pairs : List (MxArray × MxArray))
    (himg : validImage image = true)
    (hpairs : ∀ p ∈ pairs, wellTyped p = true ∧ hasRecognizedName p = true) :
    (mexFunction f32 kaze options nlhs (1 + 2 * pairs.length)
        (image :: flattenPairs pairs)).state.options.img_width = (mxGetM image : Int)
      ∧ (mexFunction f32 kaze options nlhs (1 + 2 * pairs.length)
          (image :: flattenPairs pairs)).state.options.img_height = (mxGetN image : Int)
      ∧ Event.detect (ingest f32 (writeFields f32 pairs options) image).1
          (ingest f32 (writeFields f32 pairs options) image).2.2
          ∈ (mexFunction f32 kaze options nlhs (1 + 2 * pairs.length)
              (image :: flattenPairs pairs)).state.log
      ∧ (ingest f32 (writeFields f32 pairs options) image).2.1.data = mxGetPr image
      ∧ (∀ r c : Nat, r < mxGetN image → c < mxGetM image →
          ∃ v : ℚ, image.elem c r = some v
            ∧ (ingest f32 (writeFields f32 pairs options) image).2.2.elem r c
              = some (cvtScale f32 scale255 0 v))
      ∧ Event.detect (ingest float32 (writeFields float32 pairs options) image).1
          (ingest float32 (writeFields float32 pairs options) image).2.2
          ∈ (mexFunction float32 kaze options nlhs (1 + 2 * pairs.length)
              (image :: flattenPairs pairs)).state.log
      ∧ (∀ r c : Nat, r < mxGetN image → c < mxGetM image → image.elem c r = some 0 →
          (ingest float32 (writeFields float32 pairs options) image).2.2.elem r c = some 0)
      ∧ (∀ r c : Nat, r < mxGetN image → c < mxGetM image → image.elem c r = some 255 →
          (ingest float32 (writeFields float32 pairs options) image).2.2.elem r c
            = some 1) := by
  obtain ⟨h8, hM, hN, hlen, _⟩ := (validImage_iff image).mp himg
  have hpix := fun (g : ℚ → ℚ) r c hr hc =>
    ingest_pixel g (writeFields g pairs options) image hM hN hlen r c hr hc
  refine ⟨?_, ?_, ?_, rfl, ?_, ?_, ?_, ?_⟩
  · rw [mexFunction_recognized f32 kaze options nlhs image pairs h8 hpairs, extract_options,
      ingest_eq]
    exact sizeToInt_of_lt _ hM
  · rw [mexFunction_recognized f32 kaze options nlhs image pairs h8 hpairs, extract_options,
      ingest_eq]
    exact sizeToInt_of_lt _ hN
  · rw [mexFunction_recognized f32 kaze options nlhs image pairs h8 hpairs]
    exact extract_detect_mem f32 kaze _ nlhs image
  · intro r c hr hc
    obtain ⟨v, hv, _, hv32⟩ := hpix f32 r c hr hc
    exact ⟨v, hv, hv32⟩
  · rw [mexFunction_recognized float32 kaze options nlhs image pairs h8 hpairs]
    exact extract_detect_mem float32 kaze _ nlhs image
  · intro r c hr hc h0
    obtain ⟨v, hv, _, hv32⟩ := hpix float32 r c hr hc
    rw [hv] at h0
    rw [hv32, Option.some.inj h0, cvtScale_zero]
  · intro r c hr hc h255
    obtain ⟨v, hv, _, hv32⟩ := hpix float32 r c hr hc
    rw [hv] at h255
    rw [hv32, Option.some.inj h255, cvtScale_255]

/-- Witness of claim C10 as amended: on the 2-by-3 sample image the options
end with width 2 and height 3, and pixel `(2, 1)` of the float image, which
comes from host element `(1, 2)` of value 255, is 1. -/
theorem ingestion_transposes_and_scales_witness :
    validImage sampleImage = true
      ∧ (∀ p ∈ ([] : List (MxArray × MxArray)),
          wellTyped p = true ∧ hasRecognizedName p = true)
      ∧ (mexFunction float32 sampleKAZE sampleOptions 1 1
          [sampleImage]).state.options.img_width = 2
      ∧ (mexFunction float32 sampleKAZE sampleOptions 1 1
          [sampleImage]).state.options.img_height = 3
      ∧ sampleImage.elem 1 2 = some 255
      ∧ (ingest float32 (writeFields float32 [] sampleOptions) sampleImage).2.2.elem 2 1
        = some 1 :=
  have h := ingestion_transposes_and_scales float32 sampleKAZE sampleOptions 1 sampleImage []
    (by decide) (by decide)
  ⟨by decide, by decide, h.1, h.2.1, by decide,
    h.2.2.2.2.2.2.2 2 1 (by decide) (by decide) (by decide)⟩

/-- Counterexample to claim C10 as stated: host element `(0, 0)` of the valid
sample image is 10, and pixel `(0, 0)` of the float image handed to detection
is the `float` `10526881 / 2^28`, not the exact rational `10/255`. -/
theorem ingestion_scale_counterexample :
    validImage sampleImage = true
      ∧ sampleImage.elem 0 0 = some 10
      ∧ Event.detect (ingest float32 sampleOptions sampleImage).1
          (ingest float32 sampleOptions sampleImage).2.2
          ∈ (mexFunction float32 sampleKAZE sampleOptions 1 1 [sampleImage]).state.log
      ∧ (ingest float32 sampleOptions sampleImage).2.2.elem 0 0
        = some (10526881 / 268435456)
      ∧ (ingest float32 sampleOptions sampleImage).2.2.elem 0 0 ≠ some (10 / 255) := by
  have hpix : (ingest float32 sampleOptions sampleImage).2.2.elem 0 0
      = some (10526881 / 268435456) := by
    obtain ⟨v, hv, _, hv32⟩ := ingest_pixel float32 sampleOptions sampleImage
      (by decide) (by decide) (by decide) 0 0 (by decide) (by decide)
    have h10 : sampleImage.elem 0 0 = some 10 := by decide
    rw [h10] at hv
    rw [hv32, ← Option.some.inj hv, cvtScale_10]
  refine ⟨by decide, by decide, ?_, hpix, ?_⟩
  · have h := mexFunction_recognized float32 sampleKAZE sampleOptions 1 sampleImage []
      (by decide) (by decide)
    have h2 : mexFunction float32 sampleKAZE sampleOptions 1 1 [sampleImage]
        = extract float32 sampleKAZE
            { options := sampleOptions, plhs0 := none, plhs1 := none, log := [] } 1
            sampleImage := h
    rw [h2]
    exact extract_detect_mem float32 sampleKAZE _ 1 sampleImage
  · rw [hpix]
    norm_num

/-! ## Lemmas on the descriptor output -/

theorem copyElements_succ (k : Nat) (src dst : List ℚ) :
    copyElements (k + 1) src dst
      = match src[k]? with
        | some v => (copyElements k src dst).set k v
        | none => copyElements k src dst := by
  unfold copyElements
  rw [List.range_succ, List.foldl_append]
  rfl

theorem copyElements_length (k : Nat) (src dst : List ℚ) :
    (copyElements k src dst).length = dst.length := by
  induction k with
  | zero => rfl
  | succ k ih =>
    rw [copyElements_succ]
    split <;> simp [ih]

/-- Elements of the destination buffer after the copy loop. -/
theorem copyElements_getElem? (src dst : List ℚ) :
    ∀ k j, (copyElements k src dst)[j]?
      = if j < k ∧ j < src.length ∧ j < dst.length then src[j]? else dst[j]? := by
  intro k
  induction k with
  | zero =>
    intro j
    have h : ¬ (j < 0 ∧ j < src.length ∧ j < dst.length) := by omega
    rw [if_neg h]
    rfl
  | succ k ih =>
    intro j
    rw [copyElements_succ]
    cases hs : src[k]? with
    | none =>
      simp only []
      rw [ih j]
      have hk : src.length ≤ k := List.getElem?_eq_none_iff.mp hs
      have e : (j < k + 1 ∧ j < src.length ∧ j < dst.length)
          ↔ (j < k ∧ j < src.length ∧ j < dst.length) := by omega
      simp only [e]
    | some v =>
      simp only []
      have hk : k < src.length := by
        rcases List.getElem?_eq_some.mp hs with ⟨h, _⟩
        exact h
      rw [List.getElem?_set, copyElements_length, ih j]
      by_cases h1 : k = j
      · subst h1
        by_cases h2 : k < dst.length
        · have h3 : k < k + 1 ∧ k < src.length ∧ k < dst.length := ⟨by omega, hk, h2⟩
          rw [if_pos rfl, if_pos h2, if_pos h3, hs]
        · have h3 : ¬ (k < k + 1 ∧ k < src.length ∧ k < dst.length) := by omega
          rw [if_pos rfl, if_neg h2, if_neg h3]
          exact (List.getElem?_eq_none_iff.mpr (by omega)).symm
      · have e : (j < k + 1 ∧ j < src.length ∧ j < dst.length)
            ↔ (j < k ∧ j < src.length ∧ j < dst.length) := by omega
        rw [if_neg h1]
        simp only [e]


/-- The descriptor output for a matrix of an encodable type with `n` rows and
`l` columns. -/
theorem encodeDescriptors_spec (desc : Mat) (n l : Nat)
    (htype : desc.type = CV_8UC1 ∨ desc.type = CV_32FC1)
    (hrows : desc.rows = (n : Int)) (hcols : desc.cols = (l : Int)) :
    ∃ out : MxArray, encodeDescriptors desc = some out ∧ out.M = l ∧ out.N = n
      ∧ out.classID = (if desc.type = CV_8UC1 then mxUINT8_CLASS else mxSINGLE_CLASS)
      ∧ out.data = copyElements (n * l) desc.data (List.replicate (l * n) 0) := by
  have hprod : (desc.rows * desc.cols).toNat = n * l := by
    rw [hrows, hcols, ← Nat.cast_mul, Int.toNat_ofNat]
  have hr : desc.rows.toNat = n := by rw [hrows, Int.toNat_ofNat]
  have hc : desc.cols.toNat = l := by rw [hcols, Int.toNat_ofNat]
  unfold encodeDescriptors
  rcases htype with h | h
  · rw [if_pos h]
    refine ⟨_, rfl, ?_, ?_, ?_, ?_⟩
    · exact hc
    · exact hr
    · rw [if_pos h]; rfl
    · simp only [mxCreateNumericMatrix, hprod, hr, hc]
  · have h8 : ¬ (desc.type = CV_8UC1) := by rw [h]; decide
    rw [if_neg h8, if_pos h]
    refine ⟨_, rfl, ?_, ?_, ?_, ?_⟩
    · exact hc
    · exact hr
    · rw [if_neg h8]; rfl
    · simp only [mxCreateNumericMatrix, hprod, hr, hc]

theorem encodeDescriptors_class (desc : Mat)
    (htype : desc.type = CV_8UC1 ∨ desc.type = CV_32FC1) :
    ∃ out : MxArray, encodeDescriptors desc = some out
      ∧ out.classID = (if desc.type = CV_8UC1 then mxUINT8_CLASS else mxSINGLE_CLASS) := by
  unfold encodeDescriptors
  rcases htype with h | h
  · rw [if_pos h]
    exact ⟨_, rfl, by rw [if_pos h]; rfl⟩
  · have h8 : ¬ (desc.type = CV_8UC1) := by rw [h]; decide
    rw [if_neg h8, if_pos h]
    exact ⟨_, rfl, by rw [if_neg h8]; rfl⟩

theorem encodeDescriptors_eq_none_iff (desc : Mat) :
    encodeDescriptors desc = none ↔ desc.type ≠ CV_8UC1 ∧ desc.type ≠ CV_32FC1 := by
  unfold encodeDescriptors
  by_cases h8 : desc.type = CV_8UC1
  · simp [h8]
  · by_cases h32 : desc.type = CV_32FC1
    · rw [if_neg h8, if_pos h32]
      simp [h32]
    · rw [if_neg h8, if_neg h32]
      simp [h8, h32]

theorem extract_two (f32 : ℚ → ℚ) (kaze : KAZE) (st : MexState) (image : MxArray) (h1 : st.plhs1 = none) :
    (extract f32 kaze st 2 image).state.plhs1
        = encodeDescriptors (computedDescriptors f32 kaze st.options image)
      ∧ ((extract f32 kaze st 2 image).status = Status.error MexError.unknownDescType
          ↔ encodeDescriptors (computedDescriptors f32 kaze st.options image) = none)
      ∧ (encodeDescriptors (computedDescriptors f32 kaze st.options image) ≠ none →
          (extract f32 kaze st 2 image).status = Status.returned 0) := by
  unfold extract computedDescriptors detectedKeypoints
  simp only [if_true]
  split
  · rename_i out hout
    rw [hout]
    simp
  · rename_i hout
    rw [hout]
    simp [h1]

/-- With two requested outputs, a call that reaches detection leaves in the
second slot what the descriptor encoding yields, and fails with
`kaze:unknownDescType` exactly when the encoding yields nothing. -/
theorem mexFunction_two (f32 : ℚ → ℚ) (kaze : KAZE) (options : KAZEOptions)
    (image : MxArray) (pairs : List (MxArray × MxArray))
    (himg : mxIsUint8 image = true)
    (hpairs : ∀ p ∈ pairs, wellTyped p = true ∧ hasRecognizedName p = true) :
    (mexFunction f32 kaze options 2 (1 + 2 * pairs.length)
        (image :: flattenPairs pairs)).state.plhs1
        = encodeDescriptors (computedDescriptors f32 kaze (writeFields f32 pairs options) image)
      ∧ ((mexFunction f32 kaze options 2 (1 + 2 * pairs.length)
            (image :: flattenPairs pairs)).status = Status.error MexError.unknownDescType
          ↔ encodeDescriptors
              (computedDescriptors f32 kaze (writeFields f32 pairs options) image) = none)
      ∧ (encodeDescriptors
            (computedDescriptors f32 kaze (writeFields f32 pairs options) image) ≠ none →
          (mexFunction f32 kaze options 2 (1 + 2 * pairs.length)
            (image :: flattenPairs pairs)).status = Status.returned 0) := by
  rw [mexFunction_recognized f32 kaze options 2 image pairs himg hpairs]
  exact extract_two f32 kaze
    { options := writeFields f32 pairs options, plhs0 := none, plhs1 := none, log := [] }
    image rfl

/-! ## Descriptor output -/

/-- Claim C11, as amended: with two requested outputs, for a descriptor matrix
of type `CV_8UC1` or `CV_32FC1` with `N` rows (one per keypoint) and `L`
columns, the second output is a host matrix with `L` rows and `N` columns,
holding `L * N` elements. -/
theorem descriptor_output_dimensions (f32 : ℚ → ℚ) (kaze : KAZE) (options : KAZEOptions)
    (image : MxArray) (pairs : List (MxArray × MxArray)) (n l : Nat)
    (himg : mxIsUint8 image = true)
    (hpairs : ∀ p ∈ pairs, wellTyped p = true ∧ hasRecognizedName p = true)
    (htype : (computedDescriptors f32 kaze (writeFields f32 pairs options) image).type = CV_8UC1
      ∨ (computedDescriptors f32 kaze (writeFields f32 pairs options) image).type = CV_32FC1)
    (hrows : (computedDescriptors f32 kaze (writeFields f32 pairs options) image).rows = (n : Int))
    (hcols : (computedDescriptors f32 kaze (writeFields f32 pairs options) image).cols = (l : Int)) :
    ∃ out : MxArray,
      (mexFunction f32 kaze options 2 (1 + 2 * pairs.length)
          (image :: flattenPairs pairs)).state.plhs1 = some out
        ∧ mxGetM out = l ∧ mxGetN out = n ∧ (mxGetPr out).length = l * n := by
  obtain ⟨out, hout, hM, hN, _, hdata⟩ := encodeDescriptors_spec _ n l htype hrows hcols
  refine ⟨out, ?_, hM, hN, ?_⟩
  · rw [(mexFunction_two f32 kaze options image pairs himg hpairs).1, hout]
  · unfold mxGetPr
    rw [hdata, copyElements_length, List.length_replicate]

/-- Witness of claim C11 as amended: the sample extractor describes its one
keypoint by 2 floats, and the second output has 2 rows and 1 column. -/
theorem descriptor_output_dimensions_witness :
    mxIsUint8 sampleImage = true
      ∧ (computedDescriptors float32 sampleKAZE (writeFields float32 [] sampleOptions) sampleImage).rows
        = ((1 : Nat) : Int)
      ∧ (computedDescriptors float32 sampleKAZE (writeFields float32 [] sampleOptions) sampleImage).cols
        = ((2 : Nat) : Int)
      ∧ ∃ out : MxArray,
          (mexFunction float32 sampleKAZE sampleOptions 2 1 [sampleImage]).state.plhs1 = some out
            ∧ mxGetM out = 2 ∧ mxGetN out = 1 ∧ (mxGetPr out).length = 2 * 1 :=
  ⟨by decide, by decide, by decide,
    descriptor_output_dimensions float32 sampleKAZE sampleOptions sampleImage [] 1 2
      (by decide) (by decide) (by decide) (by decide) (by decide)⟩

/-- Counterexample to claim C11 as stated: for one keypoint with descriptor
length 2 (a 1-by-2 descriptor matrix of floats) the second output has 2 rows
and 1 column, not 1 row and 2 columns. -/
theorem descriptor_output_dimensions_counterexample :
    (detectedKeypoints float32 sampleKAZE sampleOptions sampleImage).length = 1
      ∧ (computedDescriptors float32 sampleKAZE sampleOptions sampleImage).type = CV_32FC1
      ∧ (computedDescriptors float32 sampleKAZE sampleOptions sampleImage).rows = 1
      ∧ (computedDescriptors float32 sampleKAZE sampleOptions sampleImage).cols = 2
      ∧ (mexFunction float32 sampleKAZE sampleOptions 2 1 [sampleImage]).state.plhs1
        = some { classID := mxSINGLE_CLASS, M := 2, N := 1, text := "", data := [1, 2] }
      ∧ ¬ ∃ out : MxArray,
          (mexFunction float32 sampleKAZE sampleOptions 2 1 [sampleImage]).state.plhs1 = some out
            ∧ mxGetM out = 1 ∧ mxGetN out = 2 := by
  refine ⟨by decide, by decide, by decide, by decide, by decide, ?_⟩
  rintro ⟨out, hout, hM, _⟩
  have h : (mexFunction float32 sampleKAZE sampleOptions 2 1 [sampleImage]).state.plhs1
      = some { classID := mxSINGLE_CLASS, M := 2, N := 1, text := "", data := [1, 2] } := by
    decide
  rw [h] at hout
  have hout2 := Option.some.inj hout
  rw [← hout2] at hM
  exact absurd hM (by decide)

/-- Claim C12: with two requested outputs, the second output is what the
descriptor encoding yields for the descriptor matrix, and its class depends on
the type of that matrix alone: `CV_8UC1` gives a uint8 host matrix, `CV_32FC1`
a single host matrix, both with a normal return, and the call ends with
`kaze:unknownDescType` exactly when the type is neither of the two. -/
theorem descriptor_type_dispatch (f32 : ℚ → ℚ) (kaze : KAZE) (options : KAZEOptions)
    (image : MxArray) (pairs : List (MxArray × MxArray))
    (himg : mxIsUint8 image = true)
    (hpairs : ∀ p ∈ pairs, wellTyped p = true ∧ hasRecognizedName p = true) :
    ((computedDescriptors f32 kaze (writeFields f32 pairs options) image).type = CV_8UC1 →
        (mexFunction f32 kaze options 2 (1 + 2 * pairs.length)
            (image :: flattenPairs pairs)).status = Status.returned 0
          ∧ ∃ out : MxArray,
              (mexFunction f32 kaze options 2 (1 + 2 * pairs.length)
                (image :: flattenPairs pairs)).state.plhs1 = some out
              ∧ out.classID = mxUINT8_CLASS)
      ∧ ((computedDescriptors f32 kaze (writeFields f32 pairs options) image).type = CV_32FC1 →
        (mexFunction f32 kaze options 2 (1 + 2 * pairs.length)
            (image :: flattenPairs pairs)).status = Status.returned 0
          ∧ ∃ out : MxArray,
              (mexFunction f32 kaze options 2 (1 + 2 * pairs.length)
                (image :: flattenPairs pairs)).state.plhs1 = some out
              ∧ out.classID = mxSINGLE_CLASS)
      ∧ ((mexFunction f32 kaze options 2 (1 + 2 * pairs.length)
            (image :: flattenPairs pairs)).status = Status.error MexError.unknownDescType
          ↔ (computedDescriptors f32 kaze (writeFields f32 pairs options) image).type ≠ CV_8UC1
            ∧ (computedDescriptors f32 kaze (writeFields f32 pairs options) image).type
              ≠ CV_32FC1)
      ∧ ((mexFunction f32 kaze options 2 (1 + 2 * pairs.length)
            (image :: flattenPairs pairs)).status = Status.error MexError.unknownDescType →
          (mexFunction f32 kaze options 2 (1 + 2 * pairs.length)
            (image :: flattenPairs pairs)).state.plhs1 = none) := by
  obtain ⟨hp, herr, hok⟩ := mexFunction_two f32 kaze options image pairs himg hpairs
  have hsome : ∀ (cls : MxClassID),
      (computedDescriptors f32 kaze (writeFields f32 pairs options) image).type = CV_8UC1
        ∨ (computedDescriptors f32 kaze (writeFields f32 pairs options) image).type = CV_32FC1 →
      (if (computedDescriptors f32 kaze (writeFields f32 pairs options) image).type = CV_8UC1
        then mxUINT8_CLASS else mxSINGLE_CLASS) = cls →
      (mexFunction f32 kaze options 2 (1 + 2 * pairs.length)
          (image :: flattenPairs pairs)).status = Status.returned 0
        ∧ ∃ out : MxArray,
            (mexFunction f32 kaze options 2 (1 + 2 * pairs.length)
              (image :: flattenPairs pairs)).state.plhs1 = some out
            ∧ out.classID = cls := by
    intro cls htype hcls
    obtain ⟨out, hout, hclass⟩ := encodeDescriptors_class _ htype
    refine ⟨hok (by rw [hout]; simp), out, by rw [hp, hout], by rw [hclass, hcls]⟩
  refine ⟨?_, ?_, ?_, ?_⟩
  · intro h8
    exact hsome mxUINT8_CLASS (Or.inl h8) (by rw [if_pos h8])
  · intro h32
    have h8 : ¬ ((computedDescriptors f32 kaze (writeFields f32 pairs options) image).type
        = CV_8UC1) := by rw [h32]; decide
    exact hsome mxSINGLE_CLASS (Or.inr h32) (by rw [if_neg h8])
  · rw [herr, encodeDescriptors_eq_none_iff]
  · intro h
    rw [hp]
    exact herr.mp h

/-- Witness of claim C12: the sample extractor returns `CV_32FC1` descriptors,
so the second output is a single matrix and the call ends normally. -/
theorem descriptor_type_dispatch_witness :
    mxIsUint8 sampleImage = true
      ∧ (computedDescriptors float32 sampleKAZE (writeFields float32 [] sampleOptions) sampleImage).type
        = CV_32FC1
      ∧ (mexFunction float32 sampleKAZE sampleOptions 2 1 [sampleImage]).status = Status.returned 0
      ∧ ∃ out : MxArray,
          (mexFunction float32 sampleKAZE sampleOptions 2 1 [sampleImage]).state.plhs1 = some out
            ∧ out.classID = mxSINGLE_CLASS :=
  ⟨by decide, by decide,
    (descriptor_type_dispatch float32 sampleKAZE sampleOptions sampleImage [] (by decide)
      (by decide)).2.1 (by decide)⟩

/-- Claim C16: with two requested outputs, for a descriptor matrix of type
`CV_8UC1` or `CV_32FC1` with `N` rows and `L` columns stored contiguously row
by row, the buffer of the second output equals the source buffer element by
element for every flat index below `N * L`; read as a column-major host matrix
with `L` rows and `N` columns, its element `(r, c)` is source element `(c, r)`
for `r < L` and `c < N`, so host column `c` is the descriptor of keypoint `c`. -/
theorem descriptor_copy_is_flat (f32 : ℚ → ℚ) (kaze : KAZE) (options : KAZEOptions)
    (image : MxArray) (pairs : List (MxArray × MxArray)) (n l : Nat)
    (himg : mxIsUint8 image = true)
    (hpairs : ∀ p ∈ pairs, wellTyped p = true ∧ hasRecognizedName p = true)
    (htype : (computedDescriptors f32 kaze (writeFields f32 pairs options) image).type = CV_8UC1
      ∨ (computedDescriptors f32 kaze (writeFields f32 pairs options) image).type = CV_32FC1)
    (hrows : (computedDescriptors f32 kaze (writeFields f32 pairs options) image).rows = (n : Int))
    (hcols : (computedDescriptors f32 kaze (writeFields f32 pairs options) image).cols = (l : Int))
    (hlen : (computedDescriptors f32 kaze (writeFields f32 pairs options) image).data.length
      = n * l) :
    ∃ out : MxArray,
      (mexFunction f32 kaze options 2 (1 + 2 * pairs.length)
          (image :: flattenPairs pairs)).state.plhs1 = some out
        ∧ mxGetM out = l ∧ mxGetN out = n
        ∧ (∀ k : Nat, k < n * l →
            ∃ v : ℚ,
              (computedDescriptors f32 kaze (writeFields f32 pairs options) image).data[k]? = some v
                ∧ (mxGetPr out)[k]? = some v)
        ∧ (∀ r c : Nat, r < l → c < n →
            ∃ v : ℚ,
              (computedDescriptors f32 kaze (writeFields f32 pairs options) image).elem c r = some v
                ∧ out.elem r c = some v) := by
  obtain ⟨out, hout, hM, hN, _, hdata⟩ := encodeDescriptors_spec _ n l htype hrows hcols
  have hflat : ∀ k : Nat, k < n * l →
      ∃ v : ℚ,
        (computedDescriptors f32 kaze (writeFields f32 pairs options) image).data[k]? = some v
          ∧ out.data[k]? = some v := by
    intro k hk
    have hk1 : k < (computedDescriptors f32 kaze (writeFields f32 pairs options)
        image).data.length := by rw [hlen]; exact hk
    have hk2 : k < (List.replicate (l * n) (0 : ℚ)).length := by
      rw [List.length_replicate, Nat.mul_comm]; exact hk
    refine ⟨_, List.getElem?_eq_getElem hk1, ?_⟩
    rw [hdata, copyElements_getElem?, if_pos ⟨hk, hk1, hk2⟩]
    exact List.getElem?_eq_getElem hk1
  refine ⟨out, ?_, hM, hN, hflat, ?_⟩
  · rw [(mexFunction_two f32 kaze options image pairs himg hpairs).1, hout]
  · intro r c hr hc
    have hidx : c * l + r < n * l := by
      calc c * l + r < c * l + l := by omega
        _ = (c + 1) * l := by ring
        _ ≤ n * l := Nat.mul_le_mul_right _ hc
    obtain ⟨v, hv, hov⟩ := hflat (c * l + r) hidx
    have hc2 : ((c : Nat) : Int) < ((n : Nat) : Int) := by exact_mod_cast hc
    have hr2 : ((r : Nat) : Int) < ((l : Nat) : Int) := by exact_mod_cast hr
    refine ⟨v, ?_, ?_⟩
    · unfold Mat.elem
      rw [hrows, hcols, if_pos ⟨hc2, hr2⟩, Int.toNat_ofNat, hv]
    · unfold MxArray.elem
      rw [hM, hN, if_pos ⟨hr, hc⟩, Nat.add_comm, hov]

/-- Witness of claim C16: the 1-by-2 float descriptor matrix of the sample
extractor. -/
theorem descriptor_copy_is_flat_witness :
    mxIsUint8 sampleImage = true
      ∧ (computedDescriptors float32 sampleKAZE (writeFields float32 [] sampleOptions)
          sampleImage).data.length = 1 * 2
      ∧ ∃ out : MxArray,
          (mexFunction float32 sampleKAZE sampleOptions 2 1 [sampleImage]).state.plhs1 = some out
            ∧ mxGetM out = 2 ∧ mxGetN out = 1 :=
  have h := descriptor_copy_is_flat float32 sampleKAZE sampleOptions sampleImage [] 1 2
    (by decide) (by decide) (by decide) (by decide) (by decide) (by decide)
  ⟨by decide, by decide, h.choose, h.choose_spec.1, h.choose_spec.2.1, h.choose_spec.2.2.1⟩

/-! ## Lemmas on the call as a whole -/

/-- The loop ends by returning 0, by one of its two errors, or in one of the
two irregular ways of the model. -/
theorem parseLoop_status (f32 : ℚ → ℚ) (nrhs : Nat) (prhs : List MxArray) :
    ∀ (fuel i : Nat) (st : ParseState),
      (parseLoop f32 nrhs prhs fuel i st).status = Status.returned 0
        ∨ (parseLoop f32 nrhs prhs fuel i st).status = Status.error MexError.badParamTypes
        ∨ (parseLoop f32 nrhs prhs fuel i st).status = Status.error MexError.badParamName
        ∨ (parseLoop f32 nrhs prhs fuel i st).status = Status.outOfBounds
        ∨ (parseLoop f32 nrhs prhs fuel i st).status = Status.outOfFuel := by
  intro fuel
  induction fuel with
  | zero => intro i st; simp [parseLoop]
  | succ f ih =>
    intro i st
    rw [parseLoop]
    by_cases hi : i < nrhs
    · rw [if_pos hi]
      cases h0 : prhs[i]? with
      | none => simp
      | some name =>
        simp only []
        by_cases hc : mxIsChar name = true
        · simp only [hc, Bool.not_true, Bool.false_eq_true, if_false]
          cases h1 : prhs[i + 1]? with
          | none => simp
          | some value =>
            simp only []
            by_cases hn : mxIsNumeric value = true
            · simp only [hn, Bool.not_true, Bool.false_eq_true, if_false]
              cases ha : assignParam f32 (mxArrayToString name) (mxGetScalar value)
                  st.options with
              | none => simp
              | some o => exact ih _ _
            · simp [hn]
        · simp [hc]
    · rw [if_neg hi]
      simp

theorem parse_input_options_status (f32 : ℚ → ℚ) (options : KAZEOptions) (nrhs : Nat)
    (prhs : List MxArray) :
    (parse_input_options f32 options nrhs prhs).status = Status.returned 0
      ∨ (parse_input_options f32 options nrhs prhs).status
          = Status.error MexError.badParamTypes
      ∨ (parse_input_options f32 options nrhs prhs).status
          = Status.error MexError.badParamName
      ∨ (parse_input_options f32 options nrhs prhs).status = Status.outOfBounds
      ∨ (parse_input_options f32 options nrhs prhs).status = Status.outOfFuel := by
  unfold parse_input_options
  split_ifs
  · exact parseLoop_status f32 nrhs prhs _ _ _
  · exact Or.inl rfl

/-- The three ways a call can go: the help path, an end before ingestion with
both output slots unset and a status that is neither a normal return nor
`kaze:unknownDescType`, or ingestion and extraction from the parsed options. -/
theorem mexFunction_cases (f32 : ℚ → ℚ) (kaze : KAZE) (options : KAZEOptions)
    (nlhs nrhs : Nat) (prhs : List MxArray) :
    (nrhs = 0
        ∧ mexFunction f32 kaze options nlhs nrhs prhs
          = { state :=
                { options := options, plhs0 := none, plhs1 := none,
                  log := show_input_options_help.map Event.print },
              status := Status.returned 0 })
      ∨ (nrhs ≠ 0
        ∧ (∀ v, (mexFunction f32 kaze options nlhs nrhs prhs).status ≠ Status.returned v)
        ∧ (mexFunction f32 kaze options nlhs nrhs prhs).status
            ≠ Status.error MexError.unknownDescType
        ∧ (mexFunction f32 kaze options nlhs nrhs prhs).state.plhs0 = none
        ∧ (mexFunction f32 kaze options nlhs nrhs prhs).state.plhs1 = none)
      ∨ (nrhs ≠ 0
        ∧ ∃ image : MxArray, prhs[0]? = some image ∧ mxIsUint8 image = true
          ∧ (parse_input_options f32 options nrhs prhs).status = Status.returned 0
          ∧ mexFunction f32 kaze options nlhs nrhs prhs
            = extract f32 kaze
                { options := (parse_input_options f32 options nrhs prhs).state.options,
                  plhs0 := none, plhs1 := none,
                  log := (parse_input_options f32 options nrhs prhs).state.printed.map
                    Event.print } nlhs image) := by
  by_cases h0 : nrhs = 0
  · left
    exact ⟨h0, by simp [mexFunction, h0]⟩
  · right
    cases hp0 : prhs[0]? with
    | none =>
      left
      simp [mexFunction, h0, hp0]
    | some image =>
      by_cases h8 : mxIsUint8 image = true
      · by_cases h2 : nrhs % 2 = 0
        · left
          simp [mexFunction, h0, hp0, h8, h2]
        · by_cases h1 : nrhs > 1
          · rcases parse_input_options_status f32 options nrhs prhs with h | h | h | h | h
            · right
              refine ⟨h0, image, rfl, h8, h, ?_⟩
              simp only [mexFunction, h0, hp0, h8, h2, h1, if_false, if_true, Bool.not_true,
                Bool.false_eq_true, h]
            · left
              simp [mexFunction, h0, hp0, h8, h2, h1, h]
            · left
              simp [mexFunction, h0, hp0, h8, h2, h1, h]
            · left
              simp [mexFunction, h0, hp0, h8, h2, h1, h]
            · left
              simp [mexFunction, h0, hp0, h8, h2, h1, h]
          · right
            have h3 : ¬ (nrhs ≥ 3) := by omega
            refine ⟨h0, image, rfl, h8, by simp [parse_input_options, h3], ?_⟩
            simp [mexFunction, h0, hp0, h8, h2, h1, parse_input_options, h3]
      · left
        simp [mexFunction, h0, hp0, h8]

theorem summary_countP (options : KAZEOptions) (nlhs : Nat) (kpts : List KeyPoint) :
    (summary options nlhs kpts).countP Event.isDetect = 0
      ∧ (summary options nlhs kpts).countP Event.isDescribe = 0
      ∧ ∀ k, Event.describe k ∉ summary options nlhs kpts := by
  unfold summary
  split_ifs <;> simp [Event.isDetect, Event.isDescribe]

theorem print_countP (lines : List String) :
    (lines.map Event.print).countP Event.isDetect = 0
      ∧ (lines.map Event.print).countP Event.isDescribe = 0
      ∧ ∀ k, Event.describe k ∉ lines.map Event.print := by
  refine ⟨?_, ?_, ?_⟩
  · rw [List.countP_eq_zero]
    intro e he
    obtain ⟨s, _, rfl⟩ := List.mem_map.mp he
    simp [Event.isDetect]
  · rw [List.countP_eq_zero]
    intro e he
    obtain ⟨s, _, rfl⟩ := List.mem_map.mp he
    simp [Event.isDescribe]
  · intro k he
    obtain ⟨s, _, hs⟩ := List.mem_map.mp he
    cases hs

/-- The state in which extraction fails: two outputs were requested, the
descriptor slot is as before and the keypoint slot is already filled. -/
theorem extract_error (f32 : ℚ → ℚ) (kaze : KAZE) (st : MexState) (nlhs : Nat) (image : MxArray)
    (e : MexError) (h : (extract f32 kaze st nlhs image).status = Status.error e) :
    e = MexError.unknownDescType ∧ nlhs = 2
      ∧ (extract f32 kaze st nlhs image).state.plhs1 = st.plhs1
      ∧ (extract f32 kaze st nlhs image).state.plhs0
        = some (encodeKeypoints (detectedKeypoints f32 kaze st.options image)) := by
  by_cases h2 : nlhs = 2
  · subst h2
    unfold extract detectedKeypoints at *
    simp only [if_true] at h ⊢
    split at h
    · simp at h
    · simp only [Status.error.injEq] at h
      simp [h]
  · rw [extract_status_of_ne_two f32 kaze st nlhs image h2] at h
    cases h

/-- The state in which extraction ends normally. -/
theorem extract_success (f32 : ℚ → ℚ) (kaze : KAZE) (st : MexState) (nlhs : Nat) (image : MxArray)
    (h : (extract f32 kaze st nlhs image).status = Status.returned 0) :
    (extract f32 kaze st nlhs image).state.plhs0
        = (if 1 ≤ nlhs then some (encodeKeypoints (detectedKeypoints f32 kaze st.options image))
            else st.plhs0)
      ∧ (extract f32 kaze st nlhs image).state.plhs1
        = (if nlhs = 2 then encodeDescriptors (computedDescriptors f32 kaze st.options image)
            else st.plhs1)
      ∧ (nlhs = 2 → encodeDescriptors (computedDescriptors f32 kaze st.options image) ≠ none)
      ∧ (extract f32 kaze st nlhs image).state.log
        = st.log ++ [Event.detect (ingest f32 st.options image).1 (ingest f32 st.options image).2.2]
            ++ (if nlhs = 2 then [Event.describe (detectedKeypoints f32 kaze st.options image)]
                else [])
            ++ summary (ingest f32 st.options image).1 nlhs
                (detectedKeypoints f32 kaze st.options image) := by
  by_cases h2 : nlhs = 2
  · subst h2
    unfold extract computedDescriptors detectedKeypoints at *
    simp only [if_true] at h ⊢
    split at h
    · rename_i out hsome
      rw [hsome]
      simp
    · simp at h
  · have hpos : (nlhs > 0) = (1 ≤ nlhs) := rfl
    unfold extract detectedKeypoints
    simp [h2, hpos]

/-! ## Outputs, errors and phases of a call -/

/-- Claim C13, as amended: when a call ends with `kaze:notUint8`,
`kaze:badArgNum`, `kaze:badParamTypes` or `kaze:badParamName`, both output
slots are still unset; when it ends with `kaze:unknownDescType`, two outputs
were requested, the descriptor slot is unset and the keypoint slot already
holds the keypoint matrix. -/
theorem outputs_at_error (f32 : ℚ → ℚ) (kaze : KAZE) (options : KAZEOptions)
    (nlhs nrhs : Nat) (prhs : List MxArray) (e : MexError)
    (h : (mexFunction f32 kaze options nlhs nrhs prhs).status = Status.error e) :
    (e ≠ MexError.unknownDescType →
        (mexFunction f32 kaze options nlhs nrhs prhs).state.plhs0 = none
          ∧ (mexFunction f32 kaze options nlhs nrhs prhs).state.plhs1 = none)
      ∧ (e = MexError.unknownDescType →
        nlhs = 2
          ∧ (mexFunction f32 kaze options nlhs nrhs prhs).state.plhs1 = none
          ∧ ∃ image : MxArray, prhs[0]? = some image
            ∧ (mexFunction f32 kaze options nlhs nrhs prhs).state.plhs0
              = some (encodeKeypoints (detectedKeypoints f32 kaze
                  (parse_input_options f32 options nrhs prhs).state.options image))) := by
  rcases mexFunction_cases f32 kaze options nlhs nrhs prhs with
    ⟨_, hhelp⟩ | ⟨_, _, hne, h0, h1⟩ | ⟨_, image, himage, _, _, hex⟩
  · rw [hhelp] at h
    cases h
  · refine ⟨fun _ => ⟨h0, h1⟩, fun he => ?_⟩
    subst he
    exact absurd h hne
  · rw [hex] at h
    obtain ⟨he, h2, hp1, hp0⟩ := extract_error f32 kaze _ nlhs image e h
    refine ⟨fun hne => absurd he hne, fun _ => ⟨h2, ?_, image, himage, ?_⟩⟩
    · rw [hex, hp1]
    · rw [hex, hp0]

/-- Witness of claim C13 as amended: a call whose first argument is a double
array ends with `kaze:notUint8` and both slots unset. -/
theorem outputs_at_error_witness :
    (mexFunction float32 sampleKAZE sampleOptions 2 1 [sampleDoubleImage]).status
        = Status.error MexError.notUint8
      ∧ (mexFunction float32 sampleKAZE sampleOptions 2 1 [sampleDoubleImage]).state.plhs0 = none
      ∧ (mexFunction float32 sampleKAZE sampleOptions 2 1 [sampleDoubleImage]).state.plhs1 = none :=
  ⟨by decide,
    (outputs_at_error float32 sampleKAZE sampleOptions 2 1 [sampleDoubleImage] MexError.notUint8
      (by decide)).1 (by decide)⟩

/-- Counterexample to claim C13 as stated: with two requested outputs and an
extractor whose descriptors are 64-bit floats the call ends with
`kaze:unknownDescType` while the keypoint slot is set. -/
theorem outputs_at_error_counterexample :
    (mexFunction float32 sampleKAZE64 sampleOptions 2 1 [sampleImage]).status
        = Status.error MexError.unknownDescType
      ∧ (mexFunction float32 sampleKAZE64 sampleOptions 2 1 [sampleImage]).state.plhs0
        = some { classID := mxDOUBLE_CLASS, M := 1, N := 2, text := "", data := [2, 1] }
      ∧ (mexFunction float32 sampleKAZE64 sampleOptions 2 1 [sampleImage]).state.plhs0 ≠ none := by
  decide

/-- Claim C15: a call with zero arguments, for every requested output count,
only prints the help text: it returns normally with the options untouched and
both output slots unset, and its log holds the help lines and no call of
detection or description. -/
theorem no_arguments_prints_help (f32 : ℚ → ℚ) (kaze : KAZE) (options : KAZEOptions)
    (nlhs : Nat) (prhs : List MxArray) :
    mexFunction f32 kaze options nlhs 0 prhs
        = { state :=
              { options := options, plhs0 := none, plhs1 := none,
                log := show_input_options_help.map Event.print },
            status := Status.returned 0 }
      ∧ (mexFunction f32 kaze options nlhs 0 prhs).state.log.countP Event.isDetect = 0
      ∧ (mexFunction f32 kaze options nlhs 0 prhs).state.log.countP Event.isDescribe = 0 := by
  have h : mexFunction f32 kaze options nlhs 0 prhs
      = { state :=
            { options := options, plhs0 := none, plhs1 := none,
              log := show_input_options_help.map Event.print },
          status := Status.returned 0 } := by
    simp [mexFunction]
  rw [h]
  exact ⟨rfl, (print_countP show_input_options_help).1, (print_countP show_input_options_help).2.1⟩

/-- Claim C17: in a call with at least one argument that ends normally,
detection runs exactly once, on the ingested image with the parsed options;
the keypoint slot is set exactly when at least one output is requested and
the descriptor slot exactly when two are; description runs exactly when two
outputs are requested, and the keypoint list it receives is the list detection
returned. -/
theorem successful_call_phases (f32 : ℚ → ℚ) (kaze : KAZE) (options : KAZEOptions)
    (nlhs nrhs : Nat) (prhs : List MxArray) (hn : nrhs ≠ 0)
    (hs : (mexFunction f32 kaze options nlhs nrhs prhs).status = Status.returned 0) :
    ∃ image : MxArray, prhs[0]? = some image
      ∧ (mexFunction f32 kaze options nlhs nrhs prhs).state.log.countP Event.isDetect = 1
      ∧ Event.detect
          (ingest f32 (parse_input_options f32 options nrhs prhs).state.options image).1
          (ingest f32 (parse_input_options f32 options nrhs prhs).state.options image).2.2
          ∈ (mexFunction f32 kaze options nlhs nrhs prhs).state.log
      ∧ (mexFunction f32 kaze options nlhs nrhs prhs).state.plhs0
        = (if 1 ≤ nlhs then
            some (encodeKeypoints (detectedKeypoints f32 kaze
              (parse_input_options f32 options nrhs prhs).state.options image))
          else none)
      ∧ (mexFunction f32 kaze options nlhs nrhs prhs).state.plhs1
        = (if nlhs = 2 then
            encodeDescriptors (computedDescriptors f32 kaze
              (parse_input_options f32 options nrhs prhs).state.options image)
          else none)
      ∧ ((mexFunction f32 kaze options nlhs nrhs prhs).state.plhs1 ≠ none ↔ nlhs = 2)
      ∧ (mexFunction f32 kaze options nlhs nrhs prhs).state.log.countP Event.isDescribe
        = (if nlhs = 2 then 1 else 0)
      ∧ (∀ k, Event.describe k ∈ (mexFunction f32 kaze options nlhs nrhs prhs).state.log →
          nlhs = 2
            ∧ k = detectedKeypoints f32 kaze
                (parse_input_options f32 options nrhs prhs).state.options image) := by
  rcases mexFunction_cases f32 kaze options nlhs nrhs prhs with
    ⟨h0, _⟩ | ⟨_, hret, _⟩ | ⟨_, image, himage, _, _, hex⟩
  · exact absurd h0 hn
  · exact absurd hs (hret 0)
  · rw [hex] at hs
    obtain ⟨hp0, hp1, hsome, hlog⟩ := extract_success f32 kaze _ nlhs image hs
    obtain ⟨c1, c2, c3⟩ := print_countP (parse_input_options f32 options nrhs prhs).state.printed
    obtain ⟨s1, s2, s3⟩ := summary_countP
      (ingest f32 (parse_input_options f32 options nrhs prhs).state.options image).1 nlhs
      (detectedKeypoints f32 kaze (parse_input_options f32 options nrhs prhs).state.options image)
    simp only [] at hp0 hp1 hsome hlog
    refine ⟨image, himage, ?_, ?_, ?_, ?_, ?_, ?_, ?_⟩
    · rw [hex, hlog]
      simp only [List.countP_append, c1, s1]
      by_cases h2 : nlhs = 2 <;> simp [h2, Event.isDetect]
    · rw [hex, hlog]
      simp
    · rw [hex, hp0]
    · rw [hex, hp1]
    · rw [hex, hp1]
      by_cases h2 : nlhs = 2
      · simp only [h2, if_true, iff_true]
        exact hsome h2
      · simp [h2]
    · rw [hex, hlog]
      simp only [List.countP_append, c2, s2]
      by_cases h2 : nlhs = 2 <;> simp [h2, Event.isDescribe]
    · intro k hk
      rw [hex, hlog] at hk
      simp only [List.mem_append] at hk
      rcases hk with ((hk | hk) | hk) | hk
      · exact absurd hk (c3 k)
      · simp at hk
      · by_cases h2 : nlhs = 2
        · simp only [h2, if_true, List.mem_singleton, Event.describe.injEq] at hk
          exact ⟨h2, hk⟩
        · simp [h2] at hk
      · exact absurd hk (s3 k)

/-- Witness of claim C17: the sample image alone with one requested output
ends normally, with one detection and no description. -/
theorem successful_call_phases_witness :
    (1 : Nat) ≠ 0
      ∧ (mexFunction float32 sampleKAZE sampleOptions 1 1 [sampleImage]).status = Status.returned 0
      ∧ ∃ image : MxArray, [sampleImage][0]? = some image
          ∧ (mexFunction float32 sampleKAZE sampleOptions 1 1 [sampleImage]).state.log.countP
              Event.isDetect = 1 :=
  have h := successful_call_phases float32 sampleKAZE sampleOptions 1 1 [sampleImage] (by decide)
    (by decide)
  ⟨by decide, by decide, h.choose, h.choose_spec.1, h.choose_spec.2.1⟩

/-- Claim C14: for a valid uint8 host image in a call that reaches ingestion,
the host pixel at row `a`, column `b` is the pixel of the ingested images at
row `b`, column `a`, that is at pipeline position `x = a`, `y = b`; and with
one requested output a keypoint detected at `x = a`, `y = b` is reported in
its row of the output as `(b, a)`, the (column, row) of the host pixel. -/
theorem output_swap_matches_ingestion (f32 : ℚ → ℚ) (kaze : KAZE) (options : KAZEOptions)
    (image : MxArray) (pairs : List (MxArray × MxArray)) (a b : Nat)
    (himg : validImage image = true)
    (hpairs : ∀ p ∈ pairs, wellTyped p = true ∧ hasRecognizedName p = true)
    (ha : a < mxGetM image) (hb : b < mxGetN image) :
    (∃ v : ℚ, image.elem a b = some v
        ∧ (ingest f32 (writeFields f32 pairs options) image).2.1.elem b a = some v
        ∧ (ingest f32 (writeFields f32 pairs options) image).2.2.elem b a
          = some (cvtScale f32 scale255 0 v))
      ∧ ∃ out : MxArray,
          (mexFunction f32 kaze options 1 (1 + 2 * pairs.length)
            (image :: flattenPairs pairs)).state.plhs0 = some out
          ∧ ∀ (i : Nat)
              (hi : i < (detectedKeypoints f32 kaze (writeFields f32 pairs options) image).length),
              ((detectedKeypoints f32 kaze (writeFields f32 pairs options) image).get ⟨i, hi⟩).x
                  = (a : ℚ) →
              ((detectedKeypoints f32 kaze (writeFields f32 pairs options) image).get ⟨i, hi⟩).y
                  = (b : ℚ) →
              out.elem i 0 = some (b : ℚ) ∧ out.elem i 1 = some (a : ℚ) := by
  obtain ⟨h8, hM, hN, hlen, _⟩ := (validImage_iff image).mp himg
  refine ⟨ingest_pixel f32 (writeFields f32 pairs options) image hM hN hlen b a hb ha,
    encodeKeypoints (detectedKeypoints f32 kaze (writeFields f32 pairs options) image), ?_, ?_⟩
  · rw [mexFunction_recognized f32 kaze options 1 image pairs h8 hpairs]
    exact extract_plhs0 f32 kaze _ 1 image (Nat.le_refl 1)
  · intro i hi hx hy
    obtain ⟨e0, e1⟩ := encodeKeypoints_elem
      (detectedKeypoints f32 kaze (writeFields f32 pairs options) image) i hi
    rw [e0, e1, hx, hy]
    exact ⟨rfl, rfl⟩

/-- Witness of claim C14: host pixel `(1, 2)` of the 2-by-3 sample image, of
value 255, is pixel `(2, 1)` of the matrix laid over the buffer, and the
keypoint the sample extractor reports there (`x = 1`, `y = 2`) comes out as
`(2, 1)`. -/
theorem output_swap_matches_ingestion_witness :
    validImage sampleImage = true ∧ 1 < mxGetM sampleImage ∧ 2 < mxGetN sampleImage
      ∧ sampleImage.elem 1 2 = some 255
      ∧ (mexFunction float32 sampleKAZE sampleOptions 1 1 [sampleImage]).state.plhs0
        = some { classID := mxDOUBLE_CLASS, M := 1, N := 2, text := "", data := [2, 1] }
      ∧ ∃ v : ℚ, sampleImage.elem 1 2 = some v
          ∧ (ingest float32 (writeFields float32 [] sampleOptions) sampleImage).2.1.elem 2 1
            = some v
          ∧ (ingest float32 (writeFields float32 [] sampleOptions) sampleImage).2.2.elem 2 1
            = some (cvtScale float32 scale255 0 v) :=
  ⟨by decide, by decide, by decide, by decide, by decide,
    (output_swap_matches_ingestion float32 sampleKAZE sampleOptions sampleImage [] 1 2
      (by decide) (by decide) (by decide) (by decide)).1⟩

/-! ## Failure and bounds of the parsing loop -/

theorem writeFields_append (f32 : ℚ → ℚ) (ps qs : List (MxArray × MxArray))
    (o : KAZEOptions) :
    writeFields f32 (ps ++ qs) o = writeFields f32 qs (writeFields f32 ps o) := by
  simp [writeFields, List.foldl_append]

/-- Recognised well-typed pairs at the front are consumed: the loop goes on
with the rest, the options updated and two indices read per pair. -/
theorem parsePairs_append_recognized (f32 : ℚ → ℚ) (good : List (MxArray × MxArray)) :
    ∀ (rest : List (MxArray × MxArray)) (i : Nat) (st : ParseState),
      (∀ p ∈ good, wellTyped p = true ∧ hasRecognizedName p = true) →
      parsePairs f32 (good ++ rest) i st
        = parsePairs f32 rest (i + 2 * good.length)
            { options := writeFields f32 good st.options, printed := st.printed,
              reads := st.reads ++ pairIndices i good.length } := by
  induction good with
  | nil =>
    intro rest i st _
    simp [writeFields_nil, pairIndices]
  | cons p ps ih =>
    intro rest i st h
    have hp := h p (List.mem_cons_self _ _)
    have hps : ∀ q ∈ ps, wellTyped q = true ∧ hasRecognizedName q = true :=
      fun q hq => h q (List.mem_cons_of_mem _ hq)
    have hc : mxIsChar p.1 = true := by
      have := hp.1; simp [wellTyped] at this; exact this.1
    have hn : mxIsNumeric p.2 = true := by
      have := hp.1; simp [wellTyped] at this; exact this.2
    have hr : mxArrayToString p.1 ∈ recognizedNames := by
      have := hp.2; simpa [hasRecognizedName] using this
    have hrec := ih rest (i + 2)
      { st with
        options := writeField f32 (mxArrayToString p.1) (mxGetScalar p.2) st.options,
        reads := st.reads ++ [i, i + 1] } hps
    have hidx : i + 2 + 2 * ps.length = i + 2 * (p :: ps).length := by
      simp only [List.length_cons]; omega
    simp only [List.cons_append, parsePairs, hc, hn, Bool.not_true, Bool.false_eq_true,
      if_false, assignParam_eq, hr, if_true]
    refine Eq.trans hrec ?_
    rw [hidx]
    simp [writeFields_cons, pairIndices]

/-- Claim C18: when the first pairs are well typed and recognised and the next
pair is not, `parse_input_options` fails at that pair, with
`kaze:badParamTypes` when the pair is not (text, numeric), whatever its name,
and with `kaze:badParamName` otherwise; the record at the failure is the one
the earlier pairs wrote, which is the record a successful parse of only those
pairs returns, and nothing after them is written. -/
theorem parse_failure_keeps_earlier_writes (f32 : ℚ → ℚ) (init : KAZEOptions)
    (first : MxArray) (good : List (MxArray × MxArray)) (bad : MxArray × MxArray)
    (rest : List (MxArray × MxArray))
    (hgood : ∀ p ∈ good, wellTyped p = true ∧ hasRecognizedName p = true)
    (hbad : wellTyped bad = false ∨ hasRecognizedName bad = false) :
    (parse_input_options f32 init (1 + 2 * (good ++ bad :: rest).length)
        (first :: flattenPairs (good ++ bad :: rest))).status
        = Status.error
            (if wellTyped bad = true then MexError.badParamName else MexError.badParamTypes)
      ∧ (parse_input_options f32 init (1 + 2 * (good ++ bad :: rest).length)
          (first :: flattenPairs (good ++ bad :: rest))).state.options
        = writeFields f32 good init
      ∧ (parse_input_options f32 init (1 + 2 * good.length)
          (first :: flattenPairs good)).status = Status.returned 0
      ∧ (parse_input_options f32 init (1 + 2 * (good ++ bad :: rest).length)
          (first :: flattenPairs (good ++ bad :: rest))).state.options
        = (parse_input_options f32 init (1 + 2 * good.length)
            (first :: flattenPairs good)).state.options
      ∧ (mxIsNumeric bad.2 = false →
          (parse_input_options f32 init (1 + 2 * (good ++ bad :: rest).length)
            (first :: flattenPairs (good ++ bad :: rest))).status
          = Status.error MexError.badParamTypes) := by
  obtain ⟨gs, go, _⟩ := parsePairs_recognized f32 good 1
    { options := init, printed := [], reads := [] } hgood
  have hfail : (parsePairs f32 (good ++ bad :: rest) 1
      { options := init, printed := [], reads := [] }).status
        = Status.error
            (if wellTyped bad = true then MexError.badParamName else MexError.badParamTypes)
      ∧ (parsePairs f32 (good ++ bad :: rest) 1
          { options := init, printed := [], reads := [] }).state.options
        = writeFields f32 good init := by
    rw [parsePairs_append_recognized f32 good (bad :: rest) 1 _ hgood]
    by_cases hc : mxIsChar bad.1 = true
    · by_cases hn : mxIsNumeric bad.2 = true
      · have hw : wellTyped bad = true := by simp [wellTyped, hc, hn]
        have hr : mxArrayToString bad.1 ∉ recognizedNames := by
          rcases hbad with h | h
          · rw [hw] at h; cases h
          · simpa [hasRecognizedName] using h
        simp [parsePairs, hc, hn, hw, assignParam_eq, hr]
      · have hw : wellTyped bad = false := by simp [wellTyped, hc, hn]
        simp [parsePairs, hc, hn, hw]
    · have hw : wellTyped bad = false := by simp [wellTyped, hc]
      simp [parsePairs, hc, hw]
  rw [parse_input_options_eq_parsePairs, parse_input_options_eq_parsePairs]
  refine ⟨hfail.1, hfail.2, gs, by rw [hfail.2, go], ?_⟩
  intro hnum
  have hw : wellTyped bad = false := by simp [wellTyped, hnum]
  rw [hfail.1, hw]
  simp

/-- Witness of claim C18: in `"omax", 9, "soffset", 2, "bogus", "x"` the third
pair has an unrecognised name and a text value; the parse fails with
`kaze:badParamTypes`, and the record at the failure holds the 9 and the 2
written by the first two pairs in place of the defaults 4 and 1.6, so it is
not the initial record. -/
theorem parse_failure_keeps_earlier_writes_witness :
    (∀ p ∈ [(mxCreateString "omax", mxCreateDoubleScalar 9),
          (mxCreateString "soffset", mxCreateDoubleScalar 2)],
        wellTyped p = true ∧ hasRecognizedName p = true)
      ∧ hasRecognizedName (mxCreateString "bogus", mxCreateString "x") = false
      ∧ mxIsNumeric (mxCreateString "x") = false
      ∧ (parse_input_options float32 sampleOptions 7
          [sampleImage, mxCreateString "omax", mxCreateDoubleScalar 9,
            mxCreateString "soffset", mxCreateDoubleScalar 2,
            mxCreateString "bogus", mxCreateString "x"]).status
        = Status.error MexError.badParamTypes
      ∧ (parse_input_options float32 sampleOptions 7
          [sampleImage, mxCreateString "omax", mxCreateDoubleScalar 9,
            mxCreateString "soffset", mxCreateDoubleScalar 2,
            mxCreateString "bogus", mxCreateString "x"]).state.options
        = writeFields float32
            [(mxCreateString "omax", mxCreateDoubleScalar 9),
              (mxCreateString "soffset", mxCreateDoubleScalar 2)] sampleOptions
      ∧ writeFields float32
            [(mxCreateString "omax", mxCreateDoubleScalar 9),
              (mxCreateString "soffset", mxCreateDoubleScalar 2)] sampleOptions
        = { sampleOptions with omax := 9, soffset := float32 2 }
      ∧ sampleOptions.omax = 4
      ∧ (parse_input_options float32 sampleOptions 7
          [sampleImage, mxCreateString "omax", mxCreateDoubleScalar 9,
            mxCreateString "soffset", mxCreateDoubleScalar 2,
            mxCreateString "bogus", mxCreateString "x"]).state.options.omax = 9
      ∧ (parse_input_options float32 sampleOptions 7
          [sampleImage, mxCreateString "omax", mxCreateDoubleScalar 9,
            mxCreateString "soffset", mxCreateDoubleScalar 2,
            mxCreateString "bogus", mxCreateString "x"]).state.options ≠ sampleOptions :=
  have h := parse_failure_keeps_earlier_writes float32 sampleOptions sampleImage
    [(mxCreateString "omax", mxCreateDoubleScalar 9),
      (mxCreateString "soffset", mxCreateDoubleScalar 2)]
    (mxCreateString "bogus", mxCreateString "x") [] (by decide) (Or.inl (by decide))
  ⟨by decide, by decide, by decide, h.2.2.2.2 (by decide), h.2.1, by rfl, by decide,
    by decide,
    by
      intro heq
      have h2 := congrArg KAZEOptions.omax heq
      revert h2
      decide⟩

/-- A budget of at least one loop test that exceeds half the remaining index
range is never exhausted. -/
theorem parseLoop_enough_fuel (f32 : ℚ → ℚ) (nrhs : Nat) (prhs : List MxArray) :
    ∀ (fuel i : Nat) (st : ParseState), 1 ≤ fuel → nrhs + 1 < i + 2 * fuel →
      (parseLoop f32 nrhs prhs fuel i st).status ≠ Status.outOfFuel := by
  intro fuel
  induction fuel with
  | zero => intro i st h1 _; omega
  | succ f ih =>
    intro i st _ h2
    rw [parseLoop]
    by_cases hi : i < nrhs
    · rw [if_pos hi]
      cases h0 : prhs[i]? with
      | none => simp
      | some name =>
        simp only []
        by_cases hc : mxIsChar name = true
        · simp only [hc, Bool.not_true, Bool.false_eq_true, if_false]
          cases h1 : prhs[i + 1]? with
          | none => simp
          | some value =>
            simp only []
            by_cases hn : mxIsNumeric value = true
            · simp only [hn, Bool.not_true, Bool.false_eq_true, if_false]
              cases ha : assignParam f32 (mxArrayToString name) (mxGetScalar value)
                  st.options with
              | none => simp
              | some o => exact ih _ _ (by omega) (by omega)
            · simp [hn]
        · simp [hc]
    · rw [if_neg hi]
      simp

/-- Two budgets that both suffice give the same result. -/
theorem parseLoop_fuel_irrelevant (f32 : ℚ → ℚ) (nrhs : Nat) (prhs : List MxArray) :
    ∀ (fuel fuel2 i : Nat) (st : ParseState),
      1 ≤ fuel → nrhs + 1 < i + 2 * fuel → 1 ≤ fuel2 → nrhs + 1 < i + 2 * fuel2 →
      parseLoop f32 nrhs prhs fuel i st = parseLoop f32 nrhs prhs fuel2 i st := by
  intro fuel
  induction fuel with
  | zero => intro fuel2 i st h1; omega
  | succ f ih =>
    intro fuel2 i st _ h2 h3 h4
    cases fuel2 with
    | zero => omega
    | succ g =>
      rw [parseLoop, parseLoop]
      by_cases hi : i < nrhs
      · have hrec : ∀ st2, parseLoop f32 nrhs prhs f (i + 2) st2
            = parseLoop f32 nrhs prhs g (i + 2) st2 :=
          fun st2 => ih g (i + 2) st2 (by omega) (by omega) (by omega) (by omega)
        simp only [hrec]
      · rw [if_neg hi, if_neg hi]

/-- With an odd argument count, as many arguments as the count says and an odd
start index, the loop reads only indices from 1 below the count and never
leaves the argument array. -/
theorem parseLoop_in_bounds (f32 : ℚ → ℚ) (nrhs : Nat) (prhs : List MxArray)
    (hodd : nrhs % 2 = 1) (hlen : prhs.length = nrhs) :
    ∀ (fuel i : Nat) (st : ParseState), i % 2 = 1 →
      (∀ j ∈ st.reads, 1 ≤ j ∧ j < nrhs) →
      (∀ j ∈ (parseLoop f32 nrhs prhs fuel i st).state.reads, 1 ≤ j ∧ j < nrhs)
        ∧ (parseLoop f32 nrhs prhs fuel i st).status ≠ Status.outOfBounds := by
  intro fuel
  induction fuel with
  | zero =>
    intro i st _ hst
    simp only [parseLoop]
    exact ⟨hst, by simp⟩
  | succ f ih =>
    intro i st hi1 hst
    rw [parseLoop]
    by_cases hi : i < nrhs
    · have hi2 : i + 1 < nrhs := by omega
      have h0 : prhs[i]? = some (prhs.get ⟨i, by omega⟩) :=
        List.getElem?_eq_getElem (by omega)
      have h1 : prhs[i + 1]? = some (prhs.get ⟨i + 1, by omega⟩) :=
        List.getElem?_eq_getElem (by omega)
      have hone : ∀ j ∈ st.reads ++ [i], 1 ≤ j ∧ j < nrhs := by
        intro j hj
        rcases List.mem_append.mp hj with h | h
        · exact hst j h
        · simp only [List.mem_singleton] at h
          omega
      have htwo : ∀ j ∈ st.reads ++ [i, i + 1], 1 ≤ j ∧ j < nrhs := by
        intro j hj
        rcases List.mem_append.mp hj with h | h
        · exact hst j h
        · simp only [List.mem_cons, List.mem_singleton, List.not_mem_nil, or_false] at h
          omega
      rw [if_pos hi, h0]
      simp only []
      by_cases hc : mxIsChar (prhs.get ⟨i, by omega⟩) = true
      · simp only [hc, Bool.not_true, Bool.false_eq_true, if_false]
        rw [h1]
        simp only []
        by_cases hn : mxIsNumeric (prhs.get ⟨i + 1, by omega⟩) = true
        · simp only [hn, Bool.not_true, Bool.false_eq_true, if_false]
          cases ha : assignParam f32 (mxArrayToString (prhs.get ⟨i, by omega⟩))
              (mxGetScalar (prhs.get ⟨i + 1, by omega⟩)) st.options with
          | none => exact ⟨htwo, by simp⟩
          | some o => exact ih (i + 2) _ (by omega) htwo
        · simp only [hn, Bool.not_false, if_true]
          exact ⟨htwo, by simp⟩
      · simp only [hc, Bool.not_false, if_true]
        exact ⟨hone, by simp⟩
    · rw [if_neg hi]
      exact ⟨hst, by simp⟩

/-- Recognised well-typed pairs that lie inside the index range are consumed
one per loop test, whatever follows them in the argument array. -/
theorem parseLoop_recognized_prefix (f32 : ℚ → ℚ) (nrhs : Nat) (tail : List MxArray)
    (pairs : List (MxArray × MxArray)) :
    ∀ (pre : List MxArray) (fuel : Nat) (st : ParseState),
      (∀ p ∈ pairs, wellTyped p = true ∧ hasRecognizedName p = true) →
      pre.length + 2 * pairs.length ≤ nrhs →
      parseLoop f32 nrhs (pre ++ (flattenPairs pairs ++ tail)) (fuel + pairs.length)
          pre.length st
        = parseLoop f32 nrhs (pre ++ (flattenPairs pairs ++ tail)) fuel
            (pre.length + 2 * pairs.length)
            { options := writeFields f32 pairs st.options, printed := st.printed,
              reads := st.reads ++ pairIndices pre.length pairs.length } := by
  induction pairs with
  | nil =>
    intro pre fuel st _ _
    simp [writeFields_nil, pairIndices]
  | cons p ps ih =>
    intro pre fuel st h hle
    have hp := h p (List.mem_cons_self _ _)
    have hps : ∀ q ∈ ps, wellTyped q = true ∧ hasRecognizedName q = true :=
      fun q hq => h q (List.mem_cons_of_mem _ hq)
    have hc : mxIsChar p.1 = true := by
      have := hp.1; simp [wellTyped] at this; exact this.1
    have hn : mxIsNumeric p.2 = true := by
      have := hp.1; simp [wellTyped] at this; exact this.2
    have hr : mxArrayToString p.1 ∈ recognizedNames := by
      have := hp.2; simpa [hasRecognizedName] using this
    have hlt : pre.length < nrhs := by
      simp only [List.length_cons] at hle; omega
    have hflat : pre ++ (flattenPairs (p :: ps) ++ tail)
        = pre ++ p.1 :: p.2 :: (flattenPairs ps ++ tail) := by
      simp [flattenPairs]
    have hpre : pre ++ p.1 :: p.2 :: (flattenPairs ps ++ tail)
        = (pre ++ [p.1, p.2]) ++ (flattenPairs ps ++ tail) := by simp
    have hidx : pre.length + 2 = (pre ++ [p.1, p.2]).length := by simp
    have hfuel : fuel + (p :: ps).length = (fuel + ps.length) + 1 := by
      simp only [List.length_cons]; omega
    have hrec := ih (pre ++ [p.1, p.2]) fuel
      { st with
        options := writeField f32 (mxArrayToString p.1) (mxGetScalar p.2) st.options,
        reads := st.reads ++ [pre.length, pre.length + 1] } hps
      (by simp only [List.length_cons, List.length_append, List.length_nil] at hle ⊢; omega)
    have hend : (pre ++ [p.1, p.2]).length + 2 * ps.length
        = pre.length + 2 * (p :: ps).length := by
      simp only [List.length_cons, List.length_append, List.length_nil]; omega
    rw [hfuel, parseLoop, if_pos hlt, hflat, getElem?_prefix_cons, getElem?_prefix_cons_succ]
    simp only [hc, hn, Bool.not_true, Bool.false_eq_true, if_false, assignParam_eq, hr,
      if_true]
    rw [hpre, hidx, hrec, hend]
    simp [writeFields_cons, pairIndices]

/-- Taken alone with an even count, `parse_input_options` on recognised pairs
followed by one text argument reads one index past the argument array. -/
theorem parse_even_count_reads_past_end (f32 : ℚ → ℚ) (options : KAZEOptions)
    (first lastName : MxArray) (pairs : List (MxArray × MxArray))
    (hne : pairs ≠ [])
    (hpairs : ∀ p ∈ pairs, wellTyped p = true ∧ hasRecognizedName p = true)
    (hchar : mxIsChar lastName = true) :
    parse_input_options f32 options (2 + 2 * pairs.length)
        (first :: (flattenPairs pairs ++ [lastName]))
      = { state :=
            { options := writeFields f32 pairs options, printed := [],
              reads := pairIndices 1 pairs.length
                ++ [1 + 2 * pairs.length, 2 + 2 * pairs.length] },
          status := Status.outOfBounds } := by
  have hlen : 1 ≤ pairs.length := by
    cases pairs with
    | nil => exact absurd rfl hne
    | cons p ps => simp
  have h3 : 2 + 2 * pairs.length ≥ 3 := by omega
  have hfuel : 2 + 2 * pairs.length = (2 + pairs.length) + pairs.length := by omega
  have hpre := parseLoop_recognized_prefix f32 (2 + 2 * pairs.length) [lastName] pairs [first]
    (2 + pairs.length) { options := options, printed := [], reads := [] } hpairs
    (by simp only [List.length_singleton]; omega)
  have hlast : ([first] ++ (flattenPairs pairs ++ [lastName]))[1 + 2 * pairs.length]?
      = some lastName := by
    have hl : ([first] ++ flattenPairs pairs).length = 1 + 2 * pairs.length := by
      simp [flattenPairs, List.length_flatMap, Function.comp_def]
      omega
    have := getElem?_prefix_cons ([first] ++ flattenPairs pairs) lastName []
    rw [hl] at this
    simpa using this
  have hpast : ([first] ++ (flattenPairs pairs ++ [lastName]))[1 + 2 * pairs.length + 1]?
      = none := by
    apply List.getElem?_eq_none_iff.mpr
    simp [flattenPairs, List.length_flatMap, Function.comp_def]
    omega
  have hlt : 1 + 2 * pairs.length < 2 + 2 * pairs.length := by omega
  unfold parse_input_options
  rw [if_pos h3]
  have hcons : first :: (flattenPairs pairs ++ [lastName])
      = [first] ++ (flattenPairs pairs ++ [lastName]) := rfl
  rw [hcons]
  have hstart : parseLoop f32 (2 + 2 * pairs.length)
      ([first] ++ (flattenPairs pairs ++ [lastName])) (2 + 2 * pairs.length) 1
        { options := options, printed := [], reads := [] }
      = parseLoop f32 (2 + 2 * pairs.length)
          ([first] ++ (flattenPairs pairs ++ [lastName])) (2 + pairs.length + pairs.length)
          [first].length { options := options, printed := [], reads := [] } := by
    rw [← hfuel]
    rfl
  rw [hstart, hpre]
  simp only [List.length_singleton, List.nil_append]
  have hsucc : 2 + pairs.length = (1 + pairs.length) + 1 := by omega
  rw [hsucc, parseLoop, if_pos hlt, hlast]
  simp only [hchar, Bool.not_true, Bool.false_eq_true, if_false]
  rw [hpast]
  have e : 1 + 2 * pairs.length + 1 = 2 + 2 * pairs.length := by omega
  simp only [e]

/-- Claim C19, as amended.  When `mexFunction` reaches `parse_input_options`
(first argument uint8, `nrhs` odd and above 1, `nrhs` arguments present) the
loop ends within `(nrhs - 1) / 2` iterations, every index it reads lies from 1
below `nrhs`, and neither the parse nor the call leaves the argument array.
Taken alone with an even `nrhs >= 4`, when the pairs before the last index
are recognised (text, numeric) pairs and the argument at index `nrhs - 1` is
text, the last iteration reads index `nrhs`, which is outside the array. -/
theorem parse_reads_within_arguments (f32 : ℚ → ℚ) (kaze : KAZE) (options : KAZEOptions)
    (nlhs nrhs : Nat) (image : MxArray) (args : List MxArray)
    (first lastName : MxArray) (pairs : List (MxArray × MxArray))
    (himg : mxIsUint8 image = true) (hodd : nrhs % 2 = 1) (h1 : 1 < nrhs)
    (hlen : (image :: args).length = nrhs)
    (hne : pairs ≠ [])
    (hpairs : ∀ p ∈ pairs, wellTyped p = true ∧ hasRecognizedName p = true)
    (hchar : mxIsChar lastName = true) :
    (parseLoop f32 nrhs (image :: args) ((nrhs - 1) / 2 + 1) 1
          { options := options, printed := [], reads := [] }
        = parse_input_options f32 options nrhs (image :: args)
      ∧ (parse_input_options f32 options nrhs (image :: args)).status ≠ Status.outOfFuel
      ∧ (parse_input_options f32 options nrhs (image :: args)).status ≠ Status.outOfBounds
      ∧ (∀ j ∈ (parse_input_options f32 options nrhs (image :: args)).state.reads,
          1 ≤ j ∧ j < nrhs)
      ∧ (mexFunction f32 kaze options nlhs nrhs (image :: args)).status ≠ Status.outOfBounds
      ∧ (mexFunction f32 kaze options nlhs nrhs (image :: args)).status ≠ Status.outOfFuel)
      ∧ ((first :: (flattenPairs pairs ++ [lastName])).length = 2 + 2 * pairs.length
        ∧ (parse_input_options f32 options (2 + 2 * pairs.length)
            (first :: (flattenPairs pairs ++ [lastName]))).status = Status.outOfBounds
        ∧ (parse_input_options f32 options (2 + 2 * pairs.length)
            (first :: (flattenPairs pairs ++ [lastName]))).state.reads
          = pairIndices 1 pairs.length ++ [1 + 2 * pairs.length, 2 + 2 * pairs.length]) := by
  have h3 : nrhs ≥ 3 := by omega
  have hparse : parse_input_options f32 options nrhs (image :: args)
      = parseLoop f32 nrhs (image :: args) nrhs 1
          { options := options, printed := [], reads := [] } := by
    unfold parse_input_options
    rw [if_pos h3]
  have hfuel : (parse_input_options f32 options nrhs (image :: args)).status
      ≠ Status.outOfFuel := by
    rw [hparse]
    exact parseLoop_enough_fuel f32 nrhs _ nrhs 1 _ (by omega) (by omega)
  have hbounds := parseLoop_in_bounds f32 nrhs (image :: args) hodd hlen nrhs 1
    { options := options, printed := [], reads := [] } (by decide)
    (by intro j hj; cases hj)
  rw [← hparse] at hbounds
  have hmex : (mexFunction f32 kaze options nlhs nrhs (image :: args)).status
        ≠ Status.outOfBounds
      ∧ (mexFunction f32 kaze options nlhs nrhs (image :: args)).status
        ≠ Status.outOfFuel := by
    rw [mexFunction_of_parse f32 kaze options nlhs nrhs image args himg hodd]
    rcases parse_input_options_status f32 options nrhs (image :: args) with h | h | h | h | h
    · rw [h]
      simp only []
      rcases extract_status f32 kaze
        { options := (parse_input_options f32 options nrhs (image :: args)).state.options,
          plhs0 := none, plhs1 := none,
          log := (parse_input_options f32 options nrhs (image :: args)).state.printed.map
            Event.print } nlhs image with hs | hs <;> rw [hs] <;> simp
    · rw [h]; simp
    · rw [h]; simp
    · exact absurd h hbounds.2
    · exact absurd h hfuel
  refine ⟨⟨?_, hfuel, hbounds.2, hbounds.1, hmex.1, hmex.2⟩, ?_, ?_, ?_⟩
  · rw [hparse]
    exact parseLoop_fuel_irrelevant f32 nrhs _ ((nrhs - 1) / 2 + 1) nrhs 1 _
      (by omega) (by omega) (by omega) (by omega)
  · simp [flattenPairs, List.length_flatMap, Function.comp_def]
    omega
  · rw [parse_even_count_reads_past_end f32 options first lastName pairs hne hpairs hchar]
  · rw [parse_even_count_reads_past_end f32 options first lastName pairs hne hpairs hchar]

/-- Witness of claim C19 as amended: the call `img, "omax", 4` for the first
part, and `parse_input_options` alone on `img, "omax", 4, "soffset"` with
`nrhs = 4` for the second, where index 4 is read. -/
theorem parse_reads_within_arguments_witness :
    mxIsUint8 sampleImage = true ∧ 3 % 2 = 1 ∧ 1 < 3
      ∧ (sampleImage :: [mxCreateString "omax", mxCreateDoubleScalar 4]).length = 3
      ∧ mxIsChar (mxCreateString "soffset") = true
      ∧ (∀ j ∈ (parse_input_options id sampleOptions 3
            (sampleImage :: [mxCreateString "omax", mxCreateDoubleScalar 4])).state.reads,
          1 ≤ j ∧ j < 3)
      ∧ (parse_input_options id sampleOptions 4
          [sampleImage, mxCreateString "omax", mxCreateDoubleScalar 4,
            mxCreateString "soffset"]).status = Status.outOfBounds
      ∧ (parse_input_options id sampleOptions 4
          [sampleImage, mxCreateString "omax", mxCreateDoubleScalar 4,
            mxCreateString "soffset"]).state.reads = [1, 2, 3, 4] :=
  have h := parse_reads_within_arguments id sampleKAZE sampleOptions 1 3 sampleImage
    [mxCreateString "omax", mxCreateDoubleScalar 4] sampleImage (mxCreateString "soffset")
    [(mxCreateString "omax", mxCreateDoubleScalar 4)]
    (by decide) (by decide) (by decide) (by decide) (by decide) (by decide) (by decide)
  ⟨by decide, by decide, by decide, by decide, by decide, h.1.2.2.2.1, h.2.2.1, h.2.2.2⟩

/-- Counterexample to claim C19 as stated: `parse_input_options` alone with
`nrhs = 4` on `img, "omax", 4, 7` makes its last iteration at index 3, finds a
number where a name is expected, and fails with `kaze:badParamTypes` having
read the indices 1, 2 and 3 only, not index 4. -/
theorem parse_even_count_counterexample :
    [sampleImage, mxCreateString "omax", mxCreateDoubleScalar 4,
        mxCreateDoubleScalar 7].length = 4
      ∧ (parse_input_options id sampleOptions 4
          [sampleImage, mxCreateString "omax", mxCreateDoubleScalar 4,
            mxCreateDoubleScalar 7]).status = Status.error MexError.badParamTypes
      ∧ (parse_input_options id sampleOptions 4
          [sampleImage, mxCreateString "omax", mxCreateDoubleScalar 4,
            mxCreateDoubleScalar 7]).state.reads = [1, 2, 3]
      ∧ 4 ∉ (parse_input_options id sampleOptions 4
          [sampleImage, mxCreateString "omax", mxCreateDoubleScalar 4,
            mxCreateDoubleScalar 7]).state.reads := by
  decide

/-! ## The keypoint output -/

/-- Claim C8, as amended: in a call that reaches detection (uint8 image,
well-typed recognised pairs) with at least one requested output, the first
output slot holds a double matrix with as many rows as detection returned
keypoints and 2 columns, whose element `(i, 0)` is the `y` and whose element
`(i, 1)` is the `x` of the `i`-th keypoint; for an empty keypoint list it is the
empty 0-by-2 matrix.  The call ends normally when the number of requested
outputs is not 2, and also when it is 2 and the descriptor matrix has type
`CV_8UC1` or `CV_32FC1`; with two outputs and another descriptor type it ends
with `kaze:unknownDescType`, the first output being assigned all the same. -/
theorem keypoints_output_is_y_x (f32 : ℚ → ℚ) (kaze : KAZE) (options : KAZEOptions)
    (nlhs : Nat) (image : MxArray) (pairs : List (MxArray × MxArray))
    (himg : mxIsUint8 image = true)
    (hpairs : ∀ p ∈ pairs, wellTyped p = true ∧ hasRecognizedName p = true)
    (hn : 1 ≤ nlhs) :
    ∃ out : MxArray,
      (mexFunction f32 kaze options nlhs (1 + 2 * pairs.length)
          (image :: flattenPairs pairs)).state.plhs0 = some out
        ∧ out.classID = mxDOUBLE_CLASS
        ∧ out.M = (detectedKeypoints f32 kaze (writeFields f32 pairs options) image).length
        ∧ out.N = 2
        ∧ out.data.length
            = 2 * (detectedKeypoints f32 kaze (writeFields f32 pairs options) image).length
        ∧ (∀ (i : Nat)
            (hi : i < (detectedKeypoints f32 kaze (writeFields f32 pairs options) image).length),
            out.elem i 0
                = some ((detectedKeypoints f32 kaze (writeFields f32 pairs options) image).get
                    ⟨i, hi⟩).y
              ∧ out.elem i 1
                = some ((detectedKeypoints f32 kaze (writeFields f32 pairs options) image).get
                    ⟨i, hi⟩).x)
        ∧ (detectedKeypoints f32 kaze (writeFields f32 pairs options) image = [] →
            out = { classID := mxDOUBLE_CLASS, M := 0, N := 2, text := "", data := [] })
        ∧ (nlhs ≠ 2 →
            (mexFunction f32 kaze options nlhs (1 + 2 * pairs.length)
              (image :: flattenPairs pairs)).status = Status.returned 0)
        ∧ (nlhs = 2 →
            ((computedDescriptors f32 kaze (writeFields f32 pairs options) image).type
                = CV_8UC1
              ∨ (computedDescriptors f32 kaze (writeFields f32 pairs options) image).type
                = CV_32FC1) →
            (mexFunction f32 kaze options nlhs (1 + 2 * pairs.length)
              (image :: flattenPairs pairs)).status = Status.returned 0)
        ∧ (nlhs = 2 →
            (computedDescriptors f32 kaze (writeFields f32 pairs options) image).type
                ≠ CV_8UC1 →
            (computedDescriptors f32 kaze (writeFields f32 pairs options) image).type
                ≠ CV_32FC1 →
            (mexFunction f32 kaze options nlhs (1 + 2 * pairs.length)
              (image :: flattenPairs pairs)).status
              = Status.error MexError.unknownDescType) := by
  refine ⟨encodeKeypoints (detectedKeypoints f32 kaze (writeFields f32 pairs options) image),
    ?_, rfl, rfl, rfl, ?_, ?_, ?_, ?_, ?_, ?_⟩
  · rw [mexFunction_recognized f32 kaze options nlhs image pairs himg hpairs]
    exact extract_plhs0 f32 kaze _ nlhs image hn
  · have hd : (encodeKeypoints (detectedKeypoints f32 kaze (writeFields f32 pairs options)
        image)).data
        = (List.range
            (detectedKeypoints f32 kaze (writeFields f32 pairs options) image).length).foldl
            (writeKeypoint (detectedKeypoints f32 kaze (writeFields f32 pairs options) image))
            (mxCreateDoubleMatrix
              (detectedKeypoints f32 kaze (writeFields f32 pairs options) image).length
              2).data :=
      rfl
    rw [hd, foldl_writeKeypoint_length]
    simp [mxCreateDoubleMatrix, mxCreateNumericMatrix, Nat.mul_comm]
  · intro i hi
    exact encodeKeypoints_elem _ i hi
  · intro hnil
    rw [hnil]
    rfl
  · intro h2
    rw [mexFunction_recognized f32 kaze options nlhs image pairs himg hpairs]
    exact extract_status_of_ne_two f32 kaze _ nlhs image h2
  · intro h2 htype
    subst h2
    apply (mexFunction_two f32 kaze options image pairs himg hpairs).2.2
    intro hnone
    have := (encodeDescriptors_eq_none_iff _).mp hnone
    rcases htype with h | h
    · exact this.1 h
    · exact this.2 h
  · intro h2 h8 h32
    subst h2
    exact (mexFunction_two f32 kaze options image pairs himg hpairs).2.1.mpr
      ((encodeDescriptors_eq_none_iff _).mpr ⟨h8, h32⟩)

/-- Witness of claim C8 as amended: on the 2-by-3 sample image with two
requested outputs the sample extractor reports one keypoint, at `x = 1`,
`y = 2`, the first output is the 1-by-2 double matrix `(2, 1)`, and the call
ends normally, the descriptors being floats. -/
theorem keypoints_output_is_y_x_witness :
    mxIsUint8 sampleImage = true
      ∧ (∀ p ∈ ([] : List (MxArray × MxArray)),
          wellTyped p = true ∧ hasRecognizedName p = true)
      ∧ 1 ≤ 2
      ∧ detectedKeypoints float32 sampleKAZE (writeFields float32 [] sampleOptions) sampleImage
        = [{ x := 1, y := 2 }]
      ∧ (mexFunction float32 sampleKAZE sampleOptions 2 1 [sampleImage]).state.plhs0
        = some { classID := mxDOUBLE_CLASS, M := 1, N := 2, text := "", data := [2, 1] }
      ∧ (mexFunction float32 sampleKAZE sampleOptions 2 1 [sampleImage]).status
        = Status.returned 0
      ∧ ∃ out : MxArray,
          (mexFunction float32 sampleKAZE sampleOptions 2 1 [sampleImage]).state.plhs0
              = some out
            ∧ out.M
              = (detectedKeypoints float32 sampleKAZE (writeFields float32 [] sampleOptions)
                  sampleImage).length
            ∧ out.N = 2 :=
  have h := keypoints_output_is_y_x float32 sampleKAZE sampleOptions 2 sampleImage []
    (by decide) (by decide) (by decide)
  ⟨by decide, by decide, by decide, by decide, by decide,
    h.choose_spec.2.2.2.2.2.2.2.2.1 rfl (Or.inr (by decide)),
    h.choose, h.choose_spec.1, h.choose_spec.2.2.1, h.choose_spec.2.2.2.1⟩

/-- Counterexample to claim C8 as stated: with two requested outputs and an
extractor that finds no keypoint (`N = 0`) and returns descriptors of 64-bit
floats, the first output is the 0-by-2 matrix and yet an error occurs: the
call ends with `kaze:unknownDescType`. -/
theorem keypoints_output_counterexample :
    mxIsUint8 sampleImage = true ∧ 1 ≤ 2
      ∧ (detectedKeypoints float32 emptyKAZE64 sampleOptions sampleImage).length = 0
      ∧ (mexFunction float32 emptyKAZE64 sampleOptions 2 1 [sampleImage]).state.plhs0
        = some { classID := mxDOUBLE_CLASS, M := 0, N := 2, text := "", data := [] }
      ∧ (mexFunction float32 emptyKAZE64 sampleOptions 2 1 [sampleImage]).status
        = Status.error MexError.unknownDescType
      ∧ (mexFunction float32 emptyKAZE64 sampleOptions 2 1 [sampleImage]).status
        ≠ Status.returned 0 := by
  decide

end Kaze
